import Mathlib

/-!
Verification development for the small_engine repository: a shallow embedding
of its runtime core (spatial transform algebra, the entity graph with lazy
transform propagation, the per frame GPU instance arena, scene command
assembly, and the renderer frame protocol), together with theorems settling
the behavioural claims about that core.

Machine floats (f32) are modelled as exact rationals; u64/usize sizes are
modelled as Nat (no size in these components can reach 2^64 without first
exhausting memory), and the one u32 truncating cast in the draw command is
modelled with an explicit mod 2^32.
-/

/-! ## Vector and quaternion algebra (cgmath shallow embedding) -/

/-- Three component vector, embedding cgmath Vector3 of f32 over the
rationals. -/
structure Vec3 where
  x : ℚ
  y : ℚ
  z : ℚ
deriving DecidableEq, Repr

/-- Componentwise sum (cgmath Add for Vector3). -/
def Vec3.add (a b : Vec3) : Vec3 := ⟨a.x + b.x, a.y + b.y, a.z + b.z⟩

/-- Componentwise product (cgmath ElementWise::mul_element_wise). -/
def Vec3.mul_element_wise (a b : Vec3) : Vec3 := ⟨a.x * b.x, a.y * b.y, a.z * b.z⟩

/-- Scalar multiple (cgmath Mul of a vector by a scalar). -/
def Vec3.smul (c : ℚ) (v : Vec3) : Vec3 := ⟨c * v.x, c * v.y, c * v.z⟩

/-- Cross product (cgmath Vector3::cross). -/
def Vec3.cross (a b : Vec3) : Vec3 :=
  ⟨a.y * b.z - a.z * b.y, a.z * b.x - a.x * b.z, a.x * b.y - a.y * b.x⟩

/-- Zero vector. -/
def Vec3.zero : Vec3 := ⟨0, 0, 0⟩

/-- Quaternion with scalar part s and vector part v, embedding cgmath
Quaternion of f32. Quaternion::new(w, x, y, z) is ⟨w, ⟨x, y, z⟩⟩. -/
structure Quat where
  s : ℚ
  v : Vec3
deriving DecidableEq, Repr

/-- Hamilton product (cgmath Mul for Quaternion). -/
def Quat.mul (p q : Quat) : Quat :=
  ⟨p.s * q.s - p.v.x * q.v.x - p.v.y * q.v.y - p.v.z * q.v.z,
   ⟨p.s * q.v.x + p.v.x * q.s + p.v.y * q.v.z - p.v.z * q.v.y,
    p.s * q.v.y + p.v.y * q.s + p.v.z * q.v.x - p.v.x * q.v.z,
    p.s * q.v.z + p.v.z * q.s + p.v.x * q.v.y - p.v.y * q.v.x⟩⟩

/-- Action of a quaternion on a vector, embedding the cgmath operator
Mul of Quaternion by Vector3: tmp = q.v × vec + vec * q.s, and the result is
q.v × tmp * 2 + vec. For unit quaternions this is the usual rotation. -/
def Quat.rotate_vector (q : Quat) (vec : Vec3) : Vec3 :=
  let tmp := (q.v.cross vec).add (Vec3.smul q.s vec)
  (Vec3.smul 2 (q.v.cross tmp)).add vec

/-- Zero quaternion (cgmath Quaternion::zero), used by the graphics scene
identity transform. -/
def Quat.zero : Quat := ⟨0, Vec3.zero⟩

/-- Squared magnitude of a quaternion (verification helper). -/
def Quat.normSq (q : Quat) : ℚ :=
  q.s * q.s + q.v.x * q.v.x + q.v.y * q.v.y + q.v.z * q.v.z

/-- Conjugate quaternion (verification helper for the rotation lemmas). -/
def Quat.conj (q : Quat) : Quat := ⟨q.s, ⟨-q.v.x, -q.v.y, -q.v.z⟩⟩

/-- Purely imaginary quaternion holding a vector (verification helper). -/
def Quat.ofVec (v : Vec3) : Quat := ⟨0, v⟩

/-! ## SpatialTransform (src/src/core/entity/spatial_transform.rs) -/

/-- Spatial transform: scale, position, rotation. The structure is identical
in src/src/core/entity/spatial_transform.rs and
src/src/graphics/scene/spatial_transform.rs. -/
structure SpatialTransform where
  scale : Vec3
  position : Vec3
  rotation : Quat
deriving DecidableEq, Repr

/-- Identity transform of src/src/core/entity/spatial_transform.rs lines
15-21: scale (1,1,1), position (0,0,0), rotation Quaternion::new(1,0,0,0)
(the true multiplicative identity rotation). -/
def SpatialTransform.identity : SpatialTransform :=
  ⟨⟨1, 1, 1⟩, ⟨0, 0, 0⟩, ⟨1, ⟨0, 0, 0⟩⟩⟩

/-- Combination of a parent transform with a child transform,
src/src/core/entity/spatial_transform.rs lines 65-78:
scaled_position = self.scale ⊙ child.position,
combined_scale = self.scale ⊙ child.scale,
rotated_position = self.rotation * scaled_position,
final_position = self.position + rotated_position,
combined_rotation = self.rotation * child.rotation. -/
def SpatialTransform.combine (self child : SpatialTransform) : SpatialTransform :=
  let scaled_position := self.scale.mul_element_wise child.position
  let combined_scale := self.scale.mul_element_wise child.scale
  let rotated_position := self.rotation.rotate_vector scaled_position
  let final_position := self.position.add rotated_position
  let combined_rotation := self.rotation.mul child.rotation
  ⟨combined_scale, final_position, combined_rotation⟩

/-! ## Graphics scene SpatialTransform (src/src/graphics/scene/spatial_transform.rs) -/

/-- Identity transform of src/src/graphics/scene/spatial_transform.rs lines
15-21. Note the rotation is Quaternion::zero(), the degenerate zero
quaternion, not the multiplicative identity rotation. -/
def SceneSpatialTransform.identity : SpatialTransform :=
  ⟨⟨1, 1, 1⟩, ⟨0, 0, 0⟩, Quat.zero⟩

/-- Combination for the graphics scene variant,
src/src/graphics/scene/spatial_transform.rs lines 49-62. The body is
textually identical to the core entity combine. -/
def SceneSpatialTransform.combine (self child : SpatialTransform) : SpatialTransform :=
  let scaled_position := self.scale.mul_element_wise child.position
  let combined_scale := self.scale.mul_element_wise child.scale
  let rotated_position := self.rotation.rotate_vector scaled_position
  let final_position := self.position.add rotated_position
  let combined_rotation := self.rotation.mul child.rotation
  ⟨combined_scale, final_position, combined_rotation⟩

/-! ## Matrices (cgmath, column major) -/

/-- Four component vector over the rationals (cgmath Vector4). -/
structure Vec4 where
  x : ℚ
  y : ℚ
  z : ℚ
  w : ℚ
deriving DecidableEq, Repr

/-- Componentwise sum of four component vectors. -/
def Vec4.add (a b : Vec4) : Vec4 := ⟨a.x + b.x, a.y + b.y, a.z + b.z, a.w + b.w⟩

/-- Scalar multiple of a four component vector. -/
def Vec4.smul (c : ℚ) (v : Vec4) : Vec4 := ⟨c * v.x, c * v.y, c * v.z, c * v.w⟩

/-- Column major 3 by 3 matrix (cgmath Matrix3 with columns x, y, z). -/
structure Mat3 where
  x : Vec3
  y : Vec3
  z : Vec3
deriving DecidableEq, Repr

/-- Column major 4 by 4 matrix (cgmath Matrix4 with columns x, y, z, w). -/
structure Mat4 where
  x : Vec4
  y : Vec4
  z : Vec4
  w : Vec4
deriving DecidableEq, Repr

/-- Identity 3 by 3 matrix (cgmath Matrix3::identity). -/
def Mat3.identity : Mat3 := ⟨⟨1, 0, 0⟩, ⟨0, 1, 0⟩, ⟨0, 0, 1⟩⟩

/-- Matrix by vector product, as the linear combination of the columns. -/
def Mat3.mulVec (m : Mat3) (v : Vec3) : Vec3 :=
  ((Vec3.smul v.x m.x).add (Vec3.smul v.y m.y)).add (Vec3.smul v.z m.z)

/-- Matrix product of 3 by 3 matrices (cgmath Mul for Matrix3). -/
def Mat3.mul (a b : Mat3) : Mat3 := ⟨a.mulVec b.x, a.mulVec b.y, a.mulVec b.z⟩

/-- Transpose of a 3 by 3 matrix (cgmath Matrix3::transpose). -/
def Mat3.transpose (m : Mat3) : Mat3 :=
  ⟨⟨m.x.x, m.y.x, m.z.x⟩, ⟨m.x.y, m.y.y, m.z.y⟩, ⟨m.x.z, m.y.z, m.z.z⟩⟩

/-- Dot product of three component vectors. -/
def Vec3.dot (a b : Vec3) : ℚ := a.x * b.x + a.y * b.y + a.z * b.z

/-- Scalar division of a three component vector. -/
def Vec3.divs (v : Vec3) (d : ℚ) : Vec3 := ⟨v.x / d, v.y / d, v.z / d⟩

/-- Determinant of a 3 by 3 matrix (cgmath Matrix3::determinant:
self[0].cross(self[1]).dot(self[2])). -/
def Mat3.determinant (m : Mat3) : ℚ := (m.x.cross m.y).dot m.z

/-- Inverse of a 3 by 3 matrix (cgmath SquareMatrix::invert for Matrix3):
None when the determinant is zero (cgmath compares with ulps_eq against
zero; modelled as exact equality), otherwise the exact inverse, computed as
the transpose of the column cross products divided by the determinant. -/
def Mat3.invert (m : Mat3) : Option Mat3 :=
  let det := m.determinant
  if det = 0 then none
  else some (Mat3.transpose ⟨(m.y.cross m.z).divs det, (m.z.cross m.x).divs det,
    (m.x.cross m.y).divs det⟩)

/-- Identity 4 by 4 matrix. -/
def Mat4.identity : Mat4 :=
  ⟨⟨1, 0, 0, 0⟩, ⟨0, 1, 0, 0⟩, ⟨0, 0, 1, 0⟩, ⟨0, 0, 0, 1⟩⟩

/-- Matrix by vector product for 4 by 4 matrices. -/
def Mat4.mulVec (m : Mat4) (v : Vec4) : Vec4 :=
  (((Vec4.smul v.x m.x).add (Vec4.smul v.y m.y)).add
    (Vec4.smul v.z m.z)).add (Vec4.smul v.w m.w)

/-- Matrix product of 4 by 4 matrices (cgmath Mul for Matrix4). -/
def Mat4.mul (a b : Mat4) : Mat4 :=
  ⟨a.mulVec b.x, a.mulVec b.y, a.mulVec b.z, a.mulVec b.w⟩

/-- Translation matrix (cgmath Matrix4::from_translation). -/
def Mat4.from_translation (t : Vec3) : Mat4 :=
  ⟨⟨1, 0, 0, 0⟩, ⟨0, 1, 0, 0⟩, ⟨0, 0, 1, 0⟩, ⟨t.x, t.y, t.z, 1⟩⟩

/-- Non uniform scale matrix (cgmath Matrix4::from_nonuniform_scale). -/
def Mat4.from_nonuniform_scale (sx sy sz : ℚ) : Mat4 :=
  ⟨⟨sx, 0, 0, 0⟩, ⟨0, sy, 0, 0⟩, ⟨0, 0, sz, 0⟩, ⟨0, 0, 0, 1⟩⟩

/-- Rotation matrix of a quaternion (cgmath From Quaternion for Matrix3),
columns built from the doubled products; no normalisation is applied. -/
def Mat3.from_quat (q : Quat) : Mat3 :=
  let x2 := q.v.x + q.v.x
  let y2 := q.v.y + q.v.y
  let z2 := q.v.z + q.v.z
  let xx2 := x2 * q.v.x
  let xy2 := x2 * q.v.y
  let xz2 := x2 * q.v.z
  let yy2 := y2 * q.v.y
  let yz2 := y2 * q.v.z
  let zz2 := z2 * q.v.z
  let sy2 := y2 * q.s
  let sz2 := z2 * q.s
  let sx2 := x2 * q.s
  ⟨⟨1 - yy2 - zz2, xy2 + sz2, xz2 - sy2⟩,
   ⟨xy2 - sz2, 1 - xx2 - zz2, yz2 + sx2⟩,
   ⟨xz2 + sy2, yz2 - sx2, 1 - xx2 - yy2⟩⟩

/-- Rotation matrix of a quaternion as a 4 by 4 matrix (cgmath From
Quaternion for Matrix4). -/
def Mat4.from_quat (q : Quat) : Mat4 :=
  let m := Mat3.from_quat q
  ⟨⟨m.x.x, m.x.y, m.x.z, 0⟩, ⟨m.y.x, m.y.y, m.y.z, 0⟩,
   ⟨m.z.x, m.z.y, m.z.z, 0⟩, ⟨0, 0, 0, 1⟩⟩

/-! ## Raw spatial transform (src/src/graphics/scene/raw_spatial_transform.rs) -/

/-- Device ready transform data: a 4 by 4 model matrix and a 3 by 3 normal
matrix, src/src/graphics/scene/raw_spatial_transform.rs lines 7-10. -/
structure RawSpatialTransform where
  model : Mat4
  normal : Mat3
deriving DecidableEq, Repr

/-- Model and normal matrices of a graphics scene transform,
src/src/graphics/scene/spatial_transform.rs lines 33-45 (to_matrices):
model = from_translation(position) * from(rotation) * from_nonuniform_scale,
normal = Matrix3::from(rotation).invert().unwrap_or(identity).transpose(). -/
def SceneSpatialTransform.to_matrices (t : SpatialTransform) : Mat4 × Mat3 :=
  ((Mat4.from_translation t.position).mul
      ((Mat4.from_quat t.rotation).mul
        (Mat4.from_nonuniform_scale t.scale.x t.scale.y t.scale.z)),
   (((Mat3.from_quat t.rotation).invert).getD Mat3.identity).transpose)

/-- Combination into raw device data,
src/src/graphics/scene/spatial_transform.rs lines 66-73 (combine_raw):
multiplies the two model matrices and the two normal matrices. -/
def SceneSpatialTransform.combine_raw (self b : SpatialTransform) : RawSpatialTransform :=
  let sm := SceneSpatialTransform.to_matrices self
  let bm := SceneSpatialTransform.to_matrices b
  ⟨sm.1.mul bm.1, sm.2.mul bm.2⟩

/-! ## World entity (src/src/core/entity/mod.rs) -/

/-- Entity of the core world graph, src/src/core/entity/mod.rs lines 8-14.
Entity ids (slotmap keys) are modelled as list indices: the World has no
removal API, so no slot is ever reused and a dense index is a faithful
model of a generational key. -/
structure WorldEntity where
  parent : Option Nat
  children : List Nat
  parent_transform : SpatialTransform
  local_transform : SpatialTransform
  already_propagated : Bool
deriving DecidableEq, Repr

/-- Constructor of an entity, src/src/core/entity/mod.rs lines 18-30:
parent_transform starts at the identity and already_propagated at false. -/
def WorldEntity.new (parent : Option Nat) (children : List Nat)
    (local_transform : SpatialTransform) : WorldEntity :=
  ⟨parent, children, SpatialTransform.identity, local_transform, false⟩

/-- Overall transform of an entity, src/src/core/entity/mod.rs lines 37-40:
parent_transform combined with local_transform. -/
def WorldEntity.transform (e : WorldEntity) : SpatialTransform :=
  e.parent_transform.combine e.local_transform

/-- Update of the local transform, src/src/core/entity/mod.rs lines 62-69:
applies the mutator and clears already_propagated. -/
def WorldEntity.update_local_transform (e : WorldEntity)
    (update : SpatialTransform → SpatialTransform) : WorldEntity :=
  { e with local_transform := update e.local_transform, already_propagated := false }

/-- Update of the parent transform, src/src/core/entity/mod.rs lines 71-78:
applies the mutator and clears already_propagated. -/
def WorldEntity.update_parent_transform (e : WorldEntity)
    (update : SpatialTransform → SpatialTransform) : WorldEntity :=
  { e with parent_transform := update e.parent_transform, already_propagated := false }

/-- Setter for the already_propagated flag, src/src/core/entity/mod.rs
lines 85-88. -/
def WorldEntity.set_already_propagated (e : WorldEntity) (val : Bool) : WorldEntity :=
  { e with already_propagated := val }

/-! ## World (src/src/core/world.rs) -/

/-- World: the arena of entities plus the distinguished root,
src/src/core/world.rs lines 11-14. -/
structure World where
  entities : List WorldEntity
  root_entity : Nat
deriving DecidableEq, Repr

/-- Fresh world, src/src/core/world.rs lines 18-29: one root entity with no
parent, no children and the identity local transform. -/
def World.new : World :=
  ⟨[WorldEntity.new none [] SpatialTransform.identity], 0⟩

/-- Insertion of an entity, src/src/core/world.rs lines 32-42: a None parent
is replaced by the root; the new entity is appended and its fresh id
returned. No existing entity (in particular no children list) is touched. -/
def World.add_entity (w : World) (parent : Option Nat) (children : List Nat)
    (local_transform : SpatialTransform) : World × Nat :=
  let parent := some (parent.getD w.root_entity)
  (⟨w.entities ++ [WorldEntity.new parent children local_transform], w.root_entity⟩,
   w.entities.length)

/-- Lookup of an entity, src/src/core/world.rs lines 45-47. -/
def World.entity (w : World) (id : Nat) : Option WorldEntity :=
  w.entities[id]?

/-- Inner loop of World::update_graph, src/src/core/world.rs lines 66-70:
for every listed child, overwrite its parent_transform with the resolved
transform of the current entity and clear its already_propagated flag.
A missing child id makes the source unwrap panic, modelled as none. -/
def propagate_to_children (ents : List WorldEntity) (t : SpatialTransform) :
    List Nat → Option (List WorldEntity)
  | [] => some ents
  | c :: rest =>
    match ents[c]? with
    | none => none
    | some e =>
      propagate_to_children
        (ents.set c ((e.update_parent_transform fun _ => t).set_already_propagated false))
        t rest

/-- Breadth first worker of World::update_graph, src/src/core/world.rs lines
55-77. The VecDeque used with push_front and pop_back is a FIFO queue,
modelled as a list dequeued at the head and enqueued at the tail. The fuel
argument bounds the number of dequeue steps; none models either a panic on a
missing id or fuel running out before the queue empties (the source loops
until the queue is empty, forever on a cyclic graph). -/
def update_graph_aux : Nat → List Nat → List WorldEntity → Option (List WorldEntity)
  | _, [], ents => some ents
  | 0, _ :: _, _ => none
  | fuel + 1, cur :: rest, ents =>
    match ents[cur]? with
    | none => none
    | some e =>
      if e.already_propagated then
        update_graph_aux fuel (rest ++ e.children) ents
      else
        match propagate_to_children (ents.set cur (e.set_already_propagated true))
            e.transform e.children with
        | none => none
        | some ents2 => update_graph_aux fuel (rest ++ e.children) ents2

/-- Propagation pass of the world, src/src/core/world.rs lines 55-77:
breadth first from the root with an explicit queue. -/
def World.update_graph (w : World) (fuel : Nat) : Option World :=
  (update_graph_aux fuel [w.root_entity] w.entities).map
    (fun ents => ⟨ents, w.root_entity⟩)

/-- Children list of the entity at an index (empty for an invalid index). -/
def childrenOf (ents : List WorldEntity) (n : Nat) : List Nat :=
  match ents[n]? with
  | some e => e.children
  | none => []

/-- Reachability along children lists, for a fixed child assignment K:
ReachK K a b when b is a, a child of a, a child of a child, and so on. -/
inductive ReachK (K : Nat → List Nat) : Nat → Nat → Prop
  | refl (n : Nat) : ReachK K n n
  | tail {a b c : Nat} : ReachK K a b → c ∈ K b → ReachK K a c

/-- Validity of every stored child id (executable well formedness check). -/
def validChildren (ents : List WorldEntity) : Bool :=
  ents.all fun e => e.children.all (· < ents.length)

/-- Uniqueness of ownership: no id occurs in the children lists of two
different entities (executable well formedness check). -/
def childrenUnique (ents : List WorldEntity) : Bool :=
  (List.range ents.length).all fun p =>
    (List.range ents.length).all fun q =>
      (p == q) || (childrenOf ents p).all (fun c => !((childrenOf ents q).contains c))

/-- Absence of self loops: no entity lists itself as a child (executable
well formedness check). -/
def noSelfChild (ents : List WorldEntity) : Bool :=
  (List.range ents.length).all fun p => !((childrenOf ents p).contains p)

/-- Consistency of propagated flags: every entity whose already_propagated
flag is set has pushed its resolved transform to all its children. This
holds vacuously for a freshly built world (all flags false) and is
maintained by add_entity, update_local_transform and update_graph. -/
def PropagatedConsistent (ents : List WorldEntity) : Prop :=
  ∀ (p : Nat) (e : WorldEntity), ents[p]? = some e → e.already_propagated = true →
    ∀ c ∈ e.children, ∃ ce, ents[c]? = some ce ∧ ce.parent_transform = e.transform

/-! ## Instance arena (src/src/graphics/scene/instance_buffer.rs) -/

/-- Per instance record uploaded to the device; a raw spatial transform
(type MeshInstanceData in src/src/graphics/scene/instance_buffer.rs line 9). -/
def MeshInstanceData : Type := RawSpatialTransform

instance : DecidableEq MeshInstanceData :=
  inferInstanceAs (DecidableEq RawSpatialTransform)

/-- Byte size of one MeshInstanceData: a repr(C) struct of a 4 by 4 and a
3 by 3 f32 matrix, 25 floats of 4 bytes with 4 byte alignment, so 100. -/
def sizeOfMeshInstanceData : Nat := 100

/-- Device buffer handle carrying its byte size: wgpu BufferDescriptor size
is in bytes, and wgpu Buffer::size() returns it
(src/src/gpu/buffer.rs lines 30-39, create_writeable_vertex_uninit passes
its size argument straight through; the graphics twin module referenced by
the instance buffer is identical). -/
structure GpuBuffer where
  size : Nat
deriving DecidableEq, Repr

/-- Buffer creation, src/src/gpu/buffer.rs lines 31-38. -/
def GpuBuffer.create_writeable_vertex_uninit (size : Nat) : GpuBuffer := ⟨size⟩

/-- Range of one mesh within the shared instance buffer, in record units,
src/src/graphics/scene/instance_buffer.rs lines 17-20. The Rust field end
is a Lean keyword and is modelled as stop. -/
structure InstanceBufferRange where
  start : Nat
  stop : Nat
deriving DecidableEq, Repr

/-- Instance arena, src/src/graphics/scene/instance_buffer.rs lines 23-30.
The GpuContext and the label are opaque plumbing and are dropped; the
SecondaryMap of mesh ranges is modelled as a first match association list
(insert prepends, lookup takes the first hit, so the last writer wins as in
the source). Mesh ids are modelled as Nat. -/
structure InstanceBuffer where
  buffer : GpuBuffer
  buffer_data : List MeshInstanceData
  buffer_size : Nat
  mesh_ranges : List (Nat × InstanceBufferRange)
deriving DecidableEq

/-- Initial capacity in records, src/src/graphics/scene/instance_buffer.rs
line 34. -/
def INITIAL_BUF_SIZE : Nat := 10000

/-- Fresh instance buffer, src/src/graphics/scene/instance_buffer.rs lines
37-48: the device buffer is created with INITIAL_BUF_SIZE times the record
byte size. -/
def InstanceBuffer.new : InstanceBuffer :=
  ⟨GpuBuffer.create_writeable_vertex_uninit (INITIAL_BUF_SIZE * sizeOfMeshInstanceData),
   [], INITIAL_BUF_SIZE, []⟩

/-- Clear for a new frame, src/src/graphics/scene/instance_buffer.rs lines
56-59: empties the ranges and the host mirror. -/
def InstanceBuffer.clear (b : InstanceBuffer) : InstanceBuffer :=
  { b with mesh_ranges := [], buffer_data := [] }

/-- Append of instance data, src/src/graphics/scene/instance_buffer.rs lines
62-83. When required_size exceeds buffer_size the device buffer is destroyed
and recreated once with size buffer_size * 2 — note the source passes the
doubled record capacity, not a byte count, to the byte sized constructor —
and buffer_size is doubled once (no loop). Then the range
[old length, old length + data length) is recorded for the mesh and the data
appended. -/
def InstanceBuffer.add (b : InstanceBuffer) (data : List MeshInstanceData)
    (mesh : Nat) : InstanceBuffer × InstanceBufferRange :=
  let required_size := b.buffer_data.length + data.length
  let b :=
    if required_size > b.buffer_size then
      { b with
        buffer := GpuBuffer.create_writeable_vertex_uninit (b.buffer_size * 2),
        buffer_size := b.buffer_size * 2 }
    else b
  let range : InstanceBufferRange :=
    ⟨b.buffer_data.length, b.buffer_data.length + data.length⟩
  ({ b with
     mesh_ranges := (mesh, range) :: b.mesh_ranges,
     buffer_data := b.buffer_data ++ data }, range)

/-- Upload of the host mirror, src/src/graphics/scene/instance_buffer.rs
lines 92-103: panics (modelled as none) when the mirror byte size exceeds
the device buffer byte size; the actual queue write is an external effect. -/
def InstanceBuffer.write (b : InstanceBuffer) : Option Unit :=
  if b.buffer.size < b.buffer_data.length * sizeOfMeshInstanceData then none
  else some ()

/-- Byte range of one mesh, src/src/graphics/scene/instance_buffer.rs lines
109-119: the recorded record range scaled by the record byte size, none when
the mesh has no range this frame. -/
def InstanceBuffer.get_slice (b : InstanceBuffer) (mesh : Nat) : Option (Nat × Nat) :=
  (b.mesh_ranges.lookup mesh).map
    (fun r => (r.start * sizeOfMeshInstanceData, r.stop * sizeOfMeshInstanceData))

/-- Iterated add, used to state properties of a sequence of add calls within
one frame: returns the final buffer and every returned range in order. -/
def InstanceBuffer.add_all (b : InstanceBuffer) :
    List (List MeshInstanceData × Nat) → InstanceBuffer × List InstanceBufferRange
  | [] => (b, [])
  | (data, mesh) :: rest =>
    let step := b.add data mesh
    let next := step.1.add_all rest
    (next.1, step.2 :: next.2)

/-- Membership of a record index in a range. -/
def InstanceBufferRange.memb (r : InstanceBufferRange) (k : Nat) : Prop :=
  r.start ≤ k ∧ k < r.stop

/-! ## Scene (src/src/graphics/scene/mod.rs, node.rs, render/renderable/model.rs) -/

/-- Scene node, src/src/graphics/scene/node.rs lines 10-16; ids are list
indices as for world entities. -/
structure SceneNode where
  parent : Option Nat
  children : List Nat
  global_transform : SpatialTransform
  local_transform : SpatialTransform
  propagated_global_to_children : Bool
deriving DecidableEq

/-- Raw overall transform of a node, src/src/graphics/scene/node.rs lines
37-39: global_transform combined raw with local_transform. -/
def SceneNode.transform_raw (n : SceneNode) : RawSpatialTransform :=
  SceneSpatialTransform.combine_raw n.global_transform n.local_transform

/-- Mesh instance record. The declaration in
src/src/graphics/render/renderable/model.rs lines 20-23 names the spatial
id field entity (a WorldEntityId) while Scene::to_commands in
src/src/graphics/scene/mod.rs line 107 reads a field named node (a
SceneNodeId); the repository is mid refactor and the two files disagree.
The field is modelled as node, the name the verified function uses. -/
structure MeshInstance where
  mesh : Nat
  node : Nat
deriving DecidableEq

/-- Mesh asset, src/src/graphics/render/renderable/model.rs lines 38-45; the
vertex and index GpuBuffers are opaque device plumbing and are dropped. -/
structure Mesh where
  name : String
  material : Nat
  num_elements : Nat
deriving DecidableEq

/-- Material asset, src/src/graphics/render/renderable/model.rs lines 30-36;
the textures are opaque and dropped, only the bind group id is kept. -/
structure Material where
  name : String
  bind_group : Nat
deriving DecidableEq

/-- Asset store, src/src/graphics/render/assets.rs lines 14-18 (slotmaps
modelled as lists indexed by id; sprite textures are unused here). -/
structure AssetStore where
  meshes : List Mesh
  materials : List Material
deriving DecidableEq

/-- Mesh lookup, src/src/graphics/render/assets.rs lines 56-58. -/
def AssetStore.mesh (a : AssetStore) (id : Nat) : Option Mesh := a.meshes[id]?

/-- Material lookup, src/src/graphics/render/assets.rs lines 51-53. -/
def AssetStore.material (a : AssetStore) (id : Nat) : Option Material :=
  a.materials[id]?

/-- Draw kind of a command, src/src/graphics/render/commands.rs lines 31-43.
Ranges of u32 are modelled as Nat pairs. -/
inductive DrawCommand where
  | NonIndexed (vertices : Nat × Nat) (instances : Nat × Nat)
  | Indexed (indices : Nat × Nat) (base_vertex : Int) (instances : Nat × Nat)
deriving DecidableEq

/-- Render command for a mesh, src/src/graphics/render/commands.rs lines
17-29; the vertex and index buffer slices are opaque device views and are
dropped. -/
structure MeshRenderCommand where
  name : String
  mesh : Nat
  pipeline : Nat
  camera_bind_group : Nat
  lighting_bind_group : Nat
  material_bind_group : Nat
  instance_buffer_range : InstanceBufferRange
  draw : DrawCommand
deriving DecidableEq

/-- Command assembly for one mesh,
src/src/graphics/render/renderable/model.rs lines 47-81 (to_render_command):
an indexed draw over all index elements, with the instance count the range
length cast from u64 to u32 (a truncating cast, modelled with mod 2 to the
32). -/
def Mesh.to_render_command (m : Mesh) (id : Nat) (material : Material)
    (pipeline : Nat) (instance_buffer_range : InstanceBufferRange)
    (camera_bind_group lighting_bind_group : Nat) : MeshRenderCommand :=
  ⟨m.name, id, pipeline, camera_bind_group, lighting_bind_group,
   material.bind_group, instance_buffer_range,
   DrawCommand.Indexed (0, m.num_elements) 0
     (0, (instance_buffer_range.stop - instance_buffer_range.start) % 4294967296)⟩

/-- Scene errors, src/src/graphics/scene/mod.rs lines 207-217. These are the
only four variants; there is no EntityNotFound variant. -/
inductive SceneError where
  | MeshNotFound (id : Nat)
  | MaterialNotFound (id : Nat)
  | MeshInstanceNotFound (id : Nat)
  | SceneNodeNotFound (id : Nat)
deriving DecidableEq

/-- Scene, src/src/graphics/scene/mod.rs lines 37-48. The slotmaps are
modelled as lists indexed by id and the SecondaryMap of instance groups as
the list of pairs it iterates in order; camera, lights and sprite instances
are opaque to command assembly and are dropped. -/
structure Scene where
  scene_nodes : List SceneNode
  mesh_instances : List MeshInstance
  instances_by_mesh : List (Nat × List Nat)
  root_scene_node : Nat
  pipeline : Nat
  global_bind_group : Nat
  lighting_bind_group : Nat
deriving DecidableEq

/-- Resolution of the instance transforms of one group,
src/src/graphics/scene/mod.rs lines 98-112: for every instance id, the
MeshInstance record is looked up (else MeshInstanceNotFound), then its node
(else SceneNodeNotFound), and the raw transform collected; the first failure
aborts. -/
def Scene.instance_transforms (s : Scene) :
    List Nat → Except SceneError (List MeshInstanceData)
  | [] => .ok []
  | instId :: rest =>
    match s.mesh_instances[instId]? with
    | none => .error (SceneError.MeshInstanceNotFound instId)
    | some inst =>
      match s.scene_nodes[inst.node]? with
      | none => .error (SceneError.SceneNodeNotFound inst.node)
      | some node =>
        match s.instance_transforms rest with
        | .error e => .error e
        | .ok ts => .ok (node.transform_raw :: ts)

/-- Worker of Scene::to_commands over the remaining groups,
src/src/graphics/scene/mod.rs lines 89-125. The instance buffer is threaded
through because add mutates it even when a later group fails. -/
def Scene.to_commands_aux (s : Scene) (assets : AssetStore) :
    List (Nat × List Nat) → InstanceBuffer →
    InstanceBuffer × Except SceneError (List MeshRenderCommand)
  | [], ib => (ib, .ok [])
  | (mesh_id, insts) :: rest, ib =>
    match assets.mesh mesh_id with
    | none => (ib, .error (SceneError.MeshNotFound mesh_id))
    | some mesh =>
      match assets.material mesh.material with
      | none => (ib, .error (SceneError.MaterialNotFound mesh.material))
      | some material =>
        match s.instance_transforms insts with
        | .error e => (ib, .error e)
        | .ok ts =>
          let step := ib.add ts mesh_id
          let cmd := mesh.to_render_command mesh_id material s.pipeline step.2
            s.global_bind_group s.lighting_bind_group
          let next := s.to_commands_aux assets rest step.1
          (next.1, (next.2).map (fun cmds => cmd :: cmds))

/-- Command assembly of the scene, src/src/graphics/scene/mod.rs lines
84-126: walks the instance groups in order, fails fast on the first lookup
error, otherwise returns one command per group. -/
def Scene.to_commands (s : Scene) (assets : AssetStore) (ib : InstanceBuffer) :
    InstanceBuffer × Except SceneError (List MeshRenderCommand) :=
  s.to_commands_aux assets s.instances_by_mesh ib

/-! ## Renderer (src/src/graphics/render/renderer.rs) -/

/-- Render errors, src/src/graphics/render/renderer.rs lines 379-397. The
wgpu SurfaceError payload is opaque and dropped. -/
inductive RenderError where
  | NoFrameInProgress
  | PipelineNotFound (label : String)
  | GlobalBindGroupNotFound (label : String)
  | LightingBindGroupNotFound (label : String)
  | UnconfiguredSurface
  | MeshHasNoInstanceData (mesh : Nat)
  | Scene (e : SceneError)
  | Surface
deriving DecidableEq

/-- Renderer, src/src/graphics/render/renderer.rs lines 30-42. The gpu
context, surface, surface configuration, depth texture and hdr pipeline are
opaque device plumbing and are dropped; pipelines and bind groups are kept
as registries of opaque entries (only existence of an id matters), and
CurrentFrameData (a surface texture and view) as an opaque unit. -/
structure Renderer where
  surface_is_configured : Bool
  instance_buffer : InstanceBuffer
  assets : AssetStore
  pipelines : List Unit
  bind_groups : List Unit
  current_frame : Option Unit

/-- Begin of a frame, src/src/graphics/render/renderer.rs lines 119-126:
acquires the surface texture (an external wgpu call, modelled as
succeeding; its failure would surface the wgpu error) and stores the
current frame data. -/
def Renderer.begin_frame (r : Renderer) : Renderer × Except RenderError Unit :=
  ({ r with current_frame := some () }, .ok ())

/-- End of a frame, src/src/graphics/render/renderer.rs lines 129-135:
presents and clears the current frame, or fails with NoFrameInProgress. -/
def Renderer.end_frame (r : Renderer) : Renderer × Except RenderError Unit :=
  match r.current_frame with
  | some _ => ({ r with current_frame := none }, .ok ())
  | none => (r, .error RenderError.NoFrameInProgress)

/-- Draw submission of one mesh command,
src/src/graphics/render/renderer.rs lines 292-334 (write_mesh_command):
resolves the pipeline (else PipelineNotFound with the command label), the
three bind groups (get_bind_group, lines 107-111, always reports
GlobalBindGroupNotFound), and the instance buffer slice for the mesh (else
MeshHasNoInstanceData); the render pass binds are external effects. -/
def Renderer.write_mesh_command (r : Renderer) (ib : InstanceBuffer)
    (cmd : MeshRenderCommand) : Except RenderError Unit :=
  match r.pipelines[cmd.pipeline]? with
  | none => .error (RenderError.PipelineNotFound cmd.name)
  | some _ =>
    match r.bind_groups[cmd.camera_bind_group]? with
    | none => .error (RenderError.GlobalBindGroupNotFound cmd.name)
    | some _ =>
      match r.bind_groups[cmd.lighting_bind_group]? with
      | none => .error (RenderError.GlobalBindGroupNotFound cmd.name)
      | some _ =>
        match r.bind_groups[cmd.material_bind_group]? with
        | none => .error (RenderError.GlobalBindGroupNotFound cmd.name)
        | some _ =>
          match ib.get_slice cmd.mesh with
          | none => .error (RenderError.MeshHasNoInstanceData cmd.mesh)
          | some _ => .ok ()

/-- Sequential submission of the mesh commands,
src/src/graphics/render/renderer.rs lines 191-193: stops at the first
failure. -/
def Renderer.write_mesh_commands (r : Renderer) (ib : InstanceBuffer) :
    List MeshRenderCommand → Except RenderError Unit
  | [] => .ok ()
  | cmd :: rest =>
    match r.write_mesh_command ib cmd with
    | .error e => .error e
    | .ok _ => r.write_mesh_commands ib rest

/-- Frame rendering of a scene, src/src/graphics/render/renderer.rs lines
140-202. Order as in the source: the configured surface check, then command
assembly (the source calls a to_commands signature taking a world that the
checked in Scene does not have; the Scene command assembly above is used,
and the skybox branch is empty because that Scene builds no skybox
command), then the instance buffer upload write() whose panic is modelled
as none, then the current frame check (begin_frame is NOT called here), then
the sequential mesh command submission, and finally the instance buffer
clear. The encoder, render pass, hdr processing and queue submission are
external effects. -/
def Renderer.render_scene_for_frame (r : Renderer) (scene : Scene) :
    Option (Renderer × Except RenderError Unit) :=
  if r.surface_is_configured = false then
    some (r, .error RenderError.UnconfiguredSurface)
  else
    match scene.to_commands r.assets r.instance_buffer with
    | (ib, .error e) =>
      some ({ r with instance_buffer := ib }, .error (RenderError.Scene e))
    | (ib, .ok commands) =>
      match ib.write with
      | none => none
      | some _ =>
        match r.current_frame with
        | none =>
          some ({ r with instance_buffer := ib }, .error RenderError.NoFrameInProgress)
        | some _ =>
          match r.write_mesh_commands ib commands with
          | .error e =>
            some ({ r with instance_buffer := ib }, .error e)
          | .ok _ =>
            some ({ r with instance_buffer := ib.clear }, .ok ())

/-- Concrete instance record used in witnesses and counterexamples. -/
def sampleRecord : MeshInstanceData :=
  (⟨Mat4.identity, Mat3.identity⟩ : RawSpatialTransform)

/-- Total number of records of a batch list (spec side helper for stating
the range partition property). -/
def sumLens (bs : List (List MeshInstanceData × Nat)) : Nat :=
  (bs.map (fun p => p.1.length)).sum

/-- Number of records in the first i batches (spec side helper). -/
def prefLen (bs : List (List MeshInstanceData × Nat)) (i : Nat) : Nat :=
  sumLens (bs.take i)

/-! # Theorems -/

/-! ## Quaternion and vector algebra lemmas -/

/-- Componentwise characterisation of the cgmath rotation operator against
the quaternion sandwich product: rotate_vector q v equals the vector part of
q * (pure v) * conj q plus (1 - normSq q) times v. A pure polynomial
identity, no unit hypothesis. -/
theorem rotate_vector_sandwich (q : Quat) (v : Vec3) :
    q.rotate_vector v =
      ((q.mul ((Quat.ofVec v).mul q.conj)).v).add (Vec3.smul (1 - q.normSq) v) := by
  obtain ⟨s, ⟨a, b, c⟩⟩ := q
  obtain ⟨x, y, z⟩ := v
  simp only [Quat.rotate_vector, Quat.mul, Quat.conj, Quat.ofVec, Quat.normSq,
    Vec3.cross, Vec3.smul, Vec3.add, Vec3.mk.injEq]
  refine ⟨by ring, by ring, by ring⟩

/-- Associativity of the Hamilton product. -/
theorem quat_mul_assoc (p q r : Quat) : (p.mul q).mul r = p.mul (q.mul r) := by
  obtain ⟨a, ⟨b, c, d⟩⟩ := p
  obtain ⟨e, ⟨f, g, h⟩⟩ := q
  obtain ⟨i, ⟨j, k, l⟩⟩ := r
  simp only [Quat.mul, Quat.mk.injEq, Vec3.mk.injEq]
  refine ⟨by ring, by ring, by ring, by ring⟩

/-- Conjugate of a product. -/
theorem quat_conj_mul (p q : Quat) : (p.mul q).conj = (q.conj).mul p.conj := by
  obtain ⟨a, ⟨b, c, d⟩⟩ := p
  obtain ⟨e, ⟨f, g, h⟩⟩ := q
  simp only [Quat.mul, Quat.conj, Quat.mk.injEq, Vec3.mk.injEq]
  refine ⟨by ring, by ring, by ring, by ring⟩

/-- Multiplicativity of the squared norm. -/
theorem quat_normSq_mul (p q : Quat) : (p.mul q).normSq = p.normSq * q.normSq := by
  obtain ⟨a, ⟨b, c, d⟩⟩ := p
  obtain ⟨e, ⟨f, g, h⟩⟩ := q
  simp only [Quat.mul, Quat.normSq]
  ring

/-- Scalar part of a sandwich of a pure quaternion is zero. -/
theorem quat_sandwich_pure (q : Quat) (v : Vec3) :
    (q.mul ((Quat.ofVec v).mul q.conj)).s = 0 := by
  obtain ⟨s, ⟨a, b, c⟩⟩ := q
  obtain ⟨x, y, z⟩ := v
  simp only [Quat.mul, Quat.conj, Quat.ofVec]
  ring

/-- Reconstruction of a quaternion with zero scalar part from its vector. -/
theorem quat_ofVec_of_s_eq_zero (x : Quat) (h : x.s = 0) : Quat.ofVec x.v = x := by
  obtain ⟨s, v⟩ := x
  simp only [Quat.ofVec, Quat.mk.injEq] at h ⊢
  exact ⟨h.symm, trivial⟩

/-- Zero scalar multiple. -/
theorem vec3_smul_zero (v : Vec3) : Vec3.smul 0 v = Vec3.zero := by
  obtain ⟨x, y, z⟩ := v
  simp only [Vec3.smul, Vec3.zero, Vec3.mk.injEq]
  norm_num

/-- Right additive unit. -/
theorem vec3_add_zero (v : Vec3) : v.add Vec3.zero = v := by
  obtain ⟨x, y, z⟩ := v
  simp only [Vec3.add, Vec3.zero, Vec3.mk.injEq]
  norm_num

/-- Composition law of the rotation operator for unit quaternions: the
action of a product is the composition of the actions. -/
theorem rotate_vector_comp (p q : Quat) (v : Vec3)
    (hp : p.normSq = 1) (hq : q.normSq = 1) :
    (p.mul q).rotate_vector v = p.rotate_vector (q.rotate_vector v) := by
  have hpq : (p.mul q).normSq = 1 := by rw [quat_normSq_mul, hp, hq]; norm_num
  have e1 := rotate_vector_sandwich (p.mul q) v
  rw [hpq] at e1
  norm_num [vec3_smul_zero, vec3_add_zero] at e1
  have e2 := rotate_vector_sandwich q v
  rw [hq] at e2
  norm_num [vec3_smul_zero, vec3_add_zero] at e2
  have e3 := rotate_vector_sandwich p (q.rotate_vector v)
  rw [hp] at e3
  norm_num [vec3_smul_zero, vec3_add_zero] at e3
  have epure : Quat.ofVec (q.rotate_vector v) = q.mul ((Quat.ofVec v).mul q.conj) := by
    rw [e2]
    exact quat_ofVec_of_s_eq_zero _ (quat_sandwich_pure q v)
  rw [e1, e3, epure, quat_conj_mul]
  rw [quat_mul_assoc, quat_mul_assoc, quat_mul_assoc]

/-- Additivity of the rotation operator in the vector argument. -/
theorem rotate_vector_add (q : Quat) (u v : Vec3) :
    q.rotate_vector (u.add v) = (q.rotate_vector u).add (q.rotate_vector v) := by
  obtain ⟨s, ⟨a, b, c⟩⟩ := q
  obtain ⟨x, y, z⟩ := u
  obtain ⟨x', y', z'⟩ := v
  simp only [Quat.rotate_vector, Vec3.cross, Vec3.smul, Vec3.add, Vec3.mk.injEq]
  refine ⟨by ring, by ring, by ring⟩

/-- Homogeneity of the rotation operator in the vector argument. -/
theorem rotate_vector_smul (q : Quat) (c : ℚ) (v : Vec3) :
    q.rotate_vector (Vec3.smul c v) = Vec3.smul c (q.rotate_vector v) := by
  obtain ⟨s, ⟨a, b, d⟩⟩ := q
  obtain ⟨x, y, z⟩ := v
  simp only [Quat.rotate_vector, Vec3.cross, Vec3.smul, Vec3.add, Vec3.mk.injEq]
  and_intros <;> ring

/-- Componentwise product by a uniform vector is a scalar multiple. -/
theorem mul_element_wise_uniform (x : ℚ) (v : Vec3) :
    Vec3.mul_element_wise ⟨x, x, x⟩ v = Vec3.smul x v := by
  obtain ⟨a, b, c⟩ := v
  simp only [Vec3.mul_element_wise, Vec3.smul]

/-- Associativity of the componentwise product. -/
theorem mul_element_wise_assoc (a b c : Vec3) :
    (a.mul_element_wise b).mul_element_wise c = a.mul_element_wise (b.mul_element_wise c) := by
  obtain ⟨x, y, z⟩ := a
  obtain ⟨x', y', z'⟩ := b
  obtain ⟨x'', y'', z''⟩ := c
  simp only [Vec3.mul_element_wise, Vec3.mk.injEq]
  refine ⟨by ring, by ring, by ring⟩

/-- Distribution of the componentwise product over addition. -/
theorem mul_element_wise_add (s u v : Vec3) :
    s.mul_element_wise (u.add v) = (s.mul_element_wise u).add (s.mul_element_wise v) := by
  obtain ⟨x, y, z⟩ := s
  obtain ⟨a, b, c⟩ := u
  obtain ⟨a', b', c'⟩ := v
  simp only [Vec3.mul_element_wise, Vec3.add, Vec3.mk.injEq]
  refine ⟨by ring, by ring, by ring⟩

/-- Scalar multiples slide out of the componentwise product. -/
theorem smul_mul_element_wise (c : ℚ) (u v : Vec3) :
    (Vec3.smul c u).mul_element_wise v = Vec3.smul c (u.mul_element_wise v) := by
  obtain ⟨x, y, z⟩ := u
  obtain ⟨x', y', z'⟩ := v
  simp only [Vec3.mul_element_wise, Vec3.smul, Vec3.mk.injEq]
  and_intros <;> ring

/-- Associativity of vector addition. -/
theorem vec3_add_assoc (a b c : Vec3) : (a.add b).add c = a.add (b.add c) := by
  obtain ⟨x, y, z⟩ := a
  obtain ⟨x', y', z'⟩ := b
  obtain ⟨x'', y'', z''⟩ := c
  simp only [Vec3.add, Vec3.mk.injEq]
  refine ⟨by ring, by ring, by ring⟩

/-! ## C4: identity law of combine -/

/-- C4 (counterexample): the identity law fails for the graphics scene
definition of identity(). Combining SceneSpatialTransform.identity (whose
rotation is the zero quaternion) with the transform whose rotation is the
unit quaternion does not return it: the rotation of the result is the zero
quaternion. So the claim that combine(identity(), t) == t holds for each of
the repository identity() definitions is false. -/
theorem C4_counterexample :
    SceneSpatialTransform.combine SceneSpatialTransform.identity
        ⟨⟨1, 1, 1⟩, ⟨0, 0, 0⟩, ⟨1, ⟨0, 0, 0⟩⟩⟩
      ≠ ⟨⟨1, 1, 1⟩, ⟨0, 0, 0⟩, ⟨1, ⟨0, 0, 0⟩⟩⟩ := by
  norm_num [SceneSpatialTransform.combine, SceneSpatialTransform.identity, Quat.zero,
    Vec3.zero, Quat.mul, Quat.rotate_vector, Vec3.cross, Vec3.smul, Vec3.add,
    Vec3.mul_element_wise, SpatialTransform.mk.injEq, Quat.mk.injEq, Vec3.mk.injEq]

/-- C4 (amended): combine(identity(), t) == t holds for every transform t
for the core entity identity() (unit rotation); for the graphics scene
identity() (zero quaternion rotation) the combination preserves scale and
position but collapses the rotation to the zero quaternion, so the law
fails there whenever t has a nonzero rotation. -/
theorem C4_identity_law :
    (∀ t : SpatialTransform, SpatialTransform.combine SpatialTransform.identity t = t) ∧
    (∀ t : SpatialTransform,
      (SceneSpatialTransform.combine SceneSpatialTransform.identity t).scale = t.scale ∧
      (SceneSpatialTransform.combine SceneSpatialTransform.identity t).position = t.position ∧
      (SceneSpatialTransform.combine SceneSpatialTransform.identity t).rotation = Quat.zero) := by
  constructor
  · rintro ⟨⟨sx, sy, sz⟩, ⟨px, py, pz⟩, ⟨qs, ⟨qx, qy, qz⟩⟩⟩
    simp only [SpatialTransform.combine, SpatialTransform.identity, Vec3.mul_element_wise,
      Quat.rotate_vector, Vec3.cross, Vec3.smul, Vec3.add, Quat.mul,
      SpatialTransform.mk.injEq, Vec3.mk.injEq, Quat.mk.injEq]
    and_intros <;> ring
  · rintro ⟨⟨sx, sy, sz⟩, ⟨px, py, pz⟩, ⟨qs, ⟨qx, qy, qz⟩⟩⟩
    simp only [SceneSpatialTransform.combine, SceneSpatialTransform.identity, Quat.zero,
      Vec3.zero, Vec3.mul_element_wise, Quat.rotate_vector, Vec3.cross, Vec3.smul,
      Vec3.add, Quat.mul, Vec3.mk.injEq, Quat.mk.injEq]
    and_intros <;> ring

/-! ## C5: associativity of combine -/

/-- C5 (counterexample): combine is not associative for transforms with a
non uniform scale. With a = scale (1,2,1) and identity rotation, b = a 90
degree style rotation about z (quaternion with s = 1, v = (0,0,1)) and c =
position (1,0,0), the two associations give positions (-1,2,0) and
(-1,4,0). -/
theorem C5_counterexample :
    SpatialTransform.combine
        (SpatialTransform.combine
          ⟨⟨1, 2, 1⟩, ⟨0, 0, 0⟩, ⟨1, ⟨0, 0, 0⟩⟩⟩
          ⟨⟨1, 1, 1⟩, ⟨0, 0, 0⟩, ⟨1, ⟨0, 0, 1⟩⟩⟩)
        ⟨⟨1, 1, 1⟩, ⟨1, 0, 0⟩, ⟨1, ⟨0, 0, 0⟩⟩⟩
      ≠
      SpatialTransform.combine
        ⟨⟨1, 2, 1⟩, ⟨0, 0, 0⟩, ⟨1, ⟨0, 0, 0⟩⟩⟩
        (SpatialTransform.combine
          ⟨⟨1, 1, 1⟩, ⟨0, 0, 0⟩, ⟨1, ⟨0, 0, 1⟩⟩⟩
          ⟨⟨1, 1, 1⟩, ⟨1, 0, 0⟩, ⟨1, ⟨0, 0, 0⟩⟩⟩) := by
  norm_num [SpatialTransform.combine, Vec3.mul_element_wise, Quat.rotate_vector,
    Vec3.cross, Vec3.smul, Vec3.add, Quat.mul, SpatialTransform.mk.injEq,
    Vec3.mk.injEq, Quat.mk.injEq]

/-- C5 (amended): combine is associative provided the two outer rotations
are unit quaternions and the outermost scale is uniform; the counterexample
shows the non uniform scale case fails, so the unrestricted claim is
false. -/
theorem C5_combine_assoc_amended (a b c : SpatialTransform)
    (ha : a.rotation.normSq = 1) (hb : b.rotation.normSq = 1)
    (hu : ∃ u : ℚ, a.scale = ⟨u, u, u⟩) :
    SpatialTransform.combine (SpatialTransform.combine a b) c
      = SpatialTransform.combine a (SpatialTransform.combine b c) := by
  obtain ⟨w, hw⟩ := hu
  simp only [SpatialTransform.combine, SpatialTransform.mk.injEq]
  rw [hw]
  refine ⟨mul_element_wise_assoc _ _ _, ?_, quat_mul_assoc _ _ _⟩
  simp only [mul_element_wise_assoc, mul_element_wise_add, mul_element_wise_uniform,
    smul_mul_element_wise, rotate_vector_add, rotate_vector_smul, vec3_add_assoc]
  rw [rotate_vector_comp _ _ _ ha hb]

/-- C5 (witness): the amended associativity instantiated at concrete
transforms with unit rotations and a uniform outer scale. -/
theorem C5_combine_assoc_witness :
    (Quat.normSq ⟨3/5, ⟨0, 0, 4/5⟩⟩ = 1) ∧ (Quat.normSq ⟨0, ⟨0, 1, 0⟩⟩ = 1) ∧
    ((⟨⟨2, 2, 2⟩, ⟨1, 2, 3⟩, ⟨3/5, ⟨0, 0, 4/5⟩⟩⟩ : SpatialTransform).scale = ⟨2, 2, 2⟩) ∧
    SpatialTransform.combine
        (SpatialTransform.combine
          ⟨⟨2, 2, 2⟩, ⟨1, 2, 3⟩, ⟨3/5, ⟨0, 0, 4/5⟩⟩⟩
          ⟨⟨1, 2, 3⟩, ⟨4, 5, 6⟩, ⟨0, ⟨0, 1, 0⟩⟩⟩)
        ⟨⟨7, 8, 9⟩, ⟨1, 1, 1⟩, ⟨2, ⟨3, 4, 5⟩⟩⟩
      =
      SpatialTransform.combine
        ⟨⟨2, 2, 2⟩, ⟨1, 2, 3⟩, ⟨3/5, ⟨0, 0, 4/5⟩⟩⟩
        (SpatialTransform.combine
          ⟨⟨1, 2, 3⟩, ⟨4, 5, 6⟩, ⟨0, ⟨0, 1, 0⟩⟩⟩
          ⟨⟨7, 8, 9⟩, ⟨1, 1, 1⟩, ⟨2, ⟨3, 4, 5⟩⟩⟩) :=
  ⟨by norm_num [Quat.normSq], by norm_num [Quat.normSq], rfl,
   C5_combine_assoc_amended _ _ _ (by norm_num [Quat.normSq])
     (by norm_num [Quat.normSq]) ⟨2, rfl⟩⟩

/-! ## Instance buffer lemmas -/

/-- Append leaves the host mirror as the old mirror plus the data (growth
does not touch the mirror). -/
theorem add_buffer_data (b : InstanceBuffer) (data : List MeshInstanceData) (mesh : Nat) :
    (b.add data mesh).1.buffer_data = b.buffer_data ++ data := by
  simp only [InstanceBuffer.add]
  split <;> rfl

/-- Append returns the range from the old mirror length over the data
length. -/
theorem add_range_eq (b : InstanceBuffer) (data : List MeshInstanceData) (mesh : Nat) :
    (b.add data mesh).2 =
      ⟨b.buffer_data.length, b.buffer_data.length + data.length⟩ := by
  simp only [InstanceBuffer.add]
  split <;> rfl

/-- Growth behaviour of add: when the required size exceeds the capacity,
the device buffer is recreated with byte size buffer_size * 2 (the record
capacity misused as a byte count) and the capacity is doubled exactly
once. -/
theorem add_grow (b : InstanceBuffer) (data : List MeshInstanceData) (mesh : Nat)
    (h : b.buffer_data.length + data.length > b.buffer_size) :
    (b.add data mesh).1.buffer.size = b.buffer_size * 2 ∧
    (b.add data mesh).1.buffer_size = b.buffer_size * 2 := by
  constructor <;>
    simp [InstanceBuffer.add, GpuBuffer.create_writeable_vertex_uninit, h]

/-! ## C6 and C7: instance buffer growth -/

/-- C6 (failing input): a single add of 20001 records to a fresh buffer
(capacity 10000). The source doubles the capacity once, to 20000, which is
still smaller than the 20001 records now held in the host mirror, refuting
the claim that add doubles repeatedly until the capacity suffices. -/
theorem C6_failing_input :
    ((InstanceBuffer.new.add (List.replicate 20001 sampleRecord) 0).1.buffer_size = 20000) ∧
    ((InstanceBuffer.new.add (List.replicate 20001 sampleRecord) 0).1.buffer_data.length
      = 20001) ∧
    ((InstanceBuffer.new.add (List.replicate 20001 sampleRecord) 0).1.buffer_size <
      (InstanceBuffer.new.add (List.replicate 20001 sampleRecord) 0).1.buffer_data.length) := by
  have h : InstanceBuffer.new.buffer_data.length +
      (List.replicate 20001 sampleRecord).length > InstanceBuffer.new.buffer_size := by
    rw [List.length_replicate]
    norm_num [InstanceBuffer.new, INITIAL_BUF_SIZE]
  have hcap := (add_grow _ _ 0 h).2
  have hlen : (InstanceBuffer.new.add (List.replicate 20001 sampleRecord) 0).1.buffer_data.length
      = 20001 := by
    rw [add_buffer_data, List.length_append, List.length_replicate]
    norm_num [InstanceBuffer.new]
  refine ⟨?_, hlen, ?_⟩
  · rw [hcap]; rfl
  · rw [hcap, hlen]; norm_num [InstanceBuffer.new, INITIAL_BUF_SIZE]

/-- C7 (counterexample): the write panic branch is reachable. One add of
10001 records to a fresh buffer triggers growth, which recreates the device
buffer with byte size buffer_size * 2 = 20000 (the record capacity misused
as a byte count), while the host mirror holds 10001 records = 1000100
bytes; the following write panics. -/
theorem C7_counterexample :
    ((InstanceBuffer.new.add (List.replicate 10001 sampleRecord) 0).1.buffer.size = 20000) ∧
    ((InstanceBuffer.new.add (List.replicate 10001 sampleRecord) 0).1.buffer_data.length *
        sizeOfMeshInstanceData = 1000100) ∧
    ((InstanceBuffer.new.add (List.replicate 10001 sampleRecord) 0).1.write = none) := by
  have h : InstanceBuffer.new.buffer_data.length +
      (List.replicate 10001 sampleRecord).length > InstanceBuffer.new.buffer_size := by
    rw [List.length_replicate]
    norm_num [InstanceBuffer.new, INITIAL_BUF_SIZE]
  have hsize := (add_grow _ _ 0 h).1
  have hlen : (InstanceBuffer.new.add (List.replicate 10001 sampleRecord) 0).1.buffer_data.length
      = 10001 := by
    rw [add_buffer_data, List.length_append, List.length_replicate]
    norm_num [InstanceBuffer.new]
  refine ⟨?_, ?_, ?_⟩
  · rw [hsize]; rfl
  · rw [hlen]; rfl
  · rw [InstanceBuffer.write, hsize, hlen]
    norm_num [InstanceBuffer.new, INITIAL_BUF_SIZE, sizeOfMeshInstanceData]

/-- C7 (amended): write panics exactly when the host mirror byte size
exceeds the device buffer byte size; but the branch is reachable, because
an add that grows the buffer recreates the device buffer with byte size
buffer_size * 2 (a record count, not a byte count) while the mirror grows
to the appended length. -/
theorem C7_write_guard :
    (∀ b : InstanceBuffer, b.write = none ↔
      b.buffer.size < b.buffer_data.length * sizeOfMeshInstanceData) ∧
    (∀ (b : InstanceBuffer) (data : List MeshInstanceData) (mesh : Nat),
      b.buffer_data.length + data.length > b.buffer_size →
        (b.add data mesh).1.buffer.size = b.buffer_size * 2 ∧
        (b.add data mesh).1.buffer_size = b.buffer_size * 2 ∧
        (b.add data mesh).1.buffer_data.length = b.buffer_data.length + data.length) := by
  constructor
  · intro b
    by_cases h : b.buffer.size < b.buffer_data.length * sizeOfMeshInstanceData <;>
      simp [InstanceBuffer.write, h]
  · intro b data mesh h
    obtain ⟨h1, h2⟩ := add_grow b data mesh h
    refine ⟨h1, h2, ?_⟩
    rw [add_buffer_data, List.length_append]

/-- C7 (witness): the growth clause of the amended theorem instantiated at
a fresh buffer and one add of 10001 records. -/
theorem C7_write_guard_witness :
    (InstanceBuffer.new.buffer_data.length + (List.replicate 10001 sampleRecord).length >
      InstanceBuffer.new.buffer_size) ∧
    ((InstanceBuffer.new.add (List.replicate 10001 sampleRecord) 0).1.buffer.size =
      InstanceBuffer.new.buffer_size * 2) :=
  ⟨by rw [List.length_replicate]; norm_num [InstanceBuffer.new, INITIAL_BUF_SIZE],
   (C7_write_guard.2 InstanceBuffer.new (List.replicate 10001 sampleRecord) 0
      (by rw [List.length_replicate]; norm_num [InstanceBuffer.new, INITIAL_BUF_SIZE])).1⟩

/-! ## C8: range partition of the instance arena -/

/-- Sum of batch lengths over a cons. -/
theorem sumLens_cons (data : List MeshInstanceData) (mesh : Nat)
    (rest : List (List MeshInstanceData × Nat)) :
    sumLens ((data, mesh) :: rest) = data.length + sumLens rest := by
  simp [sumLens]

/-- Prefix length at zero. -/
theorem prefLen_zero (bs : List (List MeshInstanceData × Nat)) : prefLen bs 0 = 0 := by
  simp [prefLen, sumLens]

/-- Prefix length over a cons, successor index. -/
theorem prefLen_cons (data : List MeshInstanceData) (mesh : Nat)
    (rest : List (List MeshInstanceData × Nat)) (j : Nat) :
    prefLen ((data, mesh) :: rest) (j + 1) = data.length + prefLen rest j := by
  simp [prefLen, sumLens]

/-- Prefix lengths are monotone. -/
theorem prefLen_mono (bs : List (List MeshInstanceData × Nat)) :
    ∀ i j, i ≤ j → prefLen bs i ≤ prefLen bs j := by
  induction bs with
  | nil => intro i j _; simp [prefLen, sumLens]
  | cons hd rest ih =>
    obtain ⟨data, mesh⟩ := hd
    intro i j hij
    cases i with
    | zero => rw [prefLen_zero]; exact Nat.zero_le _
    | succ i' =>
      cases j with
      | zero => omega
      | succ j' =>
        rw [prefLen_cons, prefLen_cons]
        have := ih i' j' (by omega)
        omega

/-- Prefix length step: one more batch adds its length. -/
theorem prefLen_succ_eq (bs : List (List MeshInstanceData × Nat)) :
    ∀ i p, bs[i]? = some p → prefLen bs (i + 1) = prefLen bs i + p.1.length := by
  induction bs with
  | nil => intro i p h; simp at h
  | cons hd rest ih =>
    obtain ⟨data, mesh⟩ := hd
    intro i p h
    cases i with
    | zero =>
      simp only [List.getElem?_cons_zero, Option.some.injEq] at h
      subst h
      rw [prefLen_cons, prefLen_zero, prefLen_zero]
      simp
    | succ j =>
      simp only [List.getElem?_cons_succ] at h
      have := ih j p h
      rw [prefLen_cons, prefLen_cons]
      omega

/-- Prefix length at the full list is the total. -/
theorem prefLen_full (bs : List (List MeshInstanceData × Nat)) :
    prefLen bs bs.length = sumLens bs := by
  simp [prefLen]

/-- Every index below the total falls into a prefix interval. -/
theorem prefLen_cover (bs : List (List MeshInstanceData × Nat)) :
    ∀ k, k < sumLens bs →
      ∃ i, i < bs.length ∧ prefLen bs i ≤ k ∧ k < prefLen bs (i + 1) := by
  induction bs with
  | nil => intro k hk; simp [sumLens] at hk
  | cons hd rest ih =>
    obtain ⟨data, mesh⟩ := hd
    intro k hk
    by_cases h : k < data.length
    · refine ⟨0, by simp, ?_, ?_⟩
      · rw [prefLen_zero]; exact Nat.zero_le _
      · rw [prefLen_cons, prefLen_zero]; omega
    · rw [sumLens_cons] at hk
      obtain ⟨i, hi, h1, h2⟩ := ih (k - data.length) (by omega)
      refine ⟨i + 1, by simp; omega, ?_, ?_⟩
      · rw [prefLen_cons]; omega
      · rw [prefLen_cons]; omega

/-- Ranges returned by a run of add calls: there is one per batch, the
mirror grows by the total, and the i-th range is the i-th prefix interval
shifted by the initial mirror length. -/
theorem add_all_spec (bs : List (List MeshInstanceData × Nat)) :
    ∀ b : InstanceBuffer,
      ((b.add_all bs).2.length = bs.length) ∧
      ((b.add_all bs).1.buffer_data.length = b.buffer_data.length + sumLens bs) ∧
      (∀ i, i < bs.length → (b.add_all bs).2[i]? =
        some ⟨b.buffer_data.length + prefLen bs i,
              b.buffer_data.length + prefLen bs (i + 1)⟩) := by
  induction bs with
  | nil =>
    intro b
    refine ⟨rfl, by simp [InstanceBuffer.add_all, sumLens], ?_⟩
    intro i hi
    simp at hi
  | cons hd rest ih =>
    obtain ⟨data, mesh⟩ := hd
    intro b
    have hbd := add_buffer_data b data mesh
    have hrange := add_range_eq b data mesh
    obtain ⟨ih1, ih2, ih3⟩ := ih (b.add data mesh).1
    have hlen : (b.add data mesh).1.buffer_data.length
        = b.buffer_data.length + data.length := by
      rw [hbd, List.length_append]
    refine ⟨?_, ?_, ?_⟩
    · simp only [InstanceBuffer.add_all, List.length_cons, ih1]
    · simp only [InstanceBuffer.add_all]
      rw [ih2, hlen, sumLens_cons]
      omega
    · intro i hi
      cases i with
      | zero =>
        simp only [InstanceBuffer.add_all, List.getElem?_cons_zero, hrange,
          Option.some.injEq, InstanceBufferRange.mk.injEq, prefLen_cons, prefLen_zero]
        omega
      | succ j =>
        have hj : j < rest.length := by simp at hi; omega
        have hstep := ih3 j hj
        simp only [InstanceBuffer.add_all, List.getElem?_cons_succ]
        rw [hstep, hlen, prefLen_cons, prefLen_cons]
        simp only [Option.some.injEq, InstanceBufferRange.mk.injEq]
        refine ⟨by omega, by omega⟩

/-- C8: for any sequence of add calls after a clear, the returned ranges
are one per call, of length the number of records passed in that call,
pairwise disjoint, and their union covers exactly [0, total records). -/
theorem C8_range_partition (b : InstanceBuffer)
    (batches : List (List MeshInstanceData × Nat)) :
    ((b.clear.add_all batches).2.length = batches.length) ∧
    (∀ (i : Nat) (p : List MeshInstanceData × Nat) (r : InstanceBufferRange),
      batches[i]? = some p → (b.clear.add_all batches).2[i]? = some r →
      r.stop - r.start = p.1.length) ∧
    (∀ (i j : Nat) (ri rj : InstanceBufferRange),
      (b.clear.add_all batches).2[i]? = some ri →
      (b.clear.add_all batches).2[j]? = some rj → i ≠ j →
      ∀ k, ri.memb k → ¬ rj.memb k) ∧
    (∀ k, k < sumLens batches →
      ∃ (i : Nat) (r : InstanceBufferRange),
        (b.clear.add_all batches).2[i]? = some r ∧ r.memb k) ∧
    (∀ (i : Nat) (r : InstanceBufferRange),
      (b.clear.add_all batches).2[i]? = some r → r.stop ≤ sumLens batches) := by
  obtain ⟨hL, _, hR⟩ := add_all_spec batches b.clear
  have hc : b.clear.buffer_data.length = 0 := rfl
  have hR' : ∀ i, i < batches.length → (b.clear.add_all batches).2[i]? =
      some ⟨prefLen batches i, prefLen batches (i + 1)⟩ := by
    intro i hi
    rw [hR i hi, hc]
    simp
  have hidx : ∀ (i : Nat) (r : InstanceBufferRange),
      (b.clear.add_all batches).2[i]? = some r →
        i < batches.length ∧ r = ⟨prefLen batches i, prefLen batches (i + 1)⟩ := by
    intro i r hr
    have hi : i < batches.length := by
      by_contra hcon
      rw [List.getElem?_eq_none (by omega)] at hr
      exact absurd hr (by simp)
    have hv := hR' i hi
    rw [hv] at hr
    exact ⟨hi, by injection hr with h; exact h.symm⟩
  refine ⟨hL, ?_, ?_, ?_, ?_⟩
  · intro i p r hp hr
    obtain ⟨hi, hre⟩ := hidx i r hr
    subst hre
    have := prefLen_succ_eq batches i p hp
    simp only
    omega
  · intro i j ri rj hri hrj hij k hk hk2
    obtain ⟨hi, hrie⟩ := hidx i ri hri
    obtain ⟨hj, hrje⟩ := hidx j rj hrj
    subst hrie
    subst hrje
    obtain ⟨a1, a2⟩ := hk
    obtain ⟨b1, b2⟩ := hk2
    simp only [InstanceBufferRange.memb] at a1 a2 b1 b2
    rcases Nat.lt_or_ge i j with hlt | hge
    · have := prefLen_mono batches (i + 1) j (by omega)
      omega
    · have hgt : j < i := by omega
      have := prefLen_mono batches (j + 1) i (by omega)
      omega
  · intro k hk
    obtain ⟨i, hi, h1, h2⟩ := prefLen_cover batches k hk
    exact ⟨i, ⟨prefLen batches i, prefLen batches (i + 1)⟩, hR' i hi, h1, h2⟩
  · intro i r hr
    obtain ⟨hi, hre⟩ := hidx i r hr
    subst hre
    have h1 := prefLen_mono batches (i + 1) batches.length (by omega)
    rw [prefLen_full] at h1
    simpa using h1

/-! ## C9: fail fast command assembly -/

/-- Transform resolution of a group errors whenever some listed instance
resolves to a missing scene node. -/
theorem instance_transforms_error (s : Scene) :
    ∀ (insts : List Nat) (iid : Nat) (inst : MeshInstance),
      iid ∈ insts → s.mesh_instances[iid]? = some inst →
      s.scene_nodes[inst.node]? = none →
      ∃ e, s.instance_transforms insts = Except.error e := by
  intro insts
  induction insts with
  | nil => intro iid inst h; simp at h
  | cons j tl ih =>
    intro iid inst hmem hinst hnode
    simp only [Scene.instance_transforms]
    split
    · exact ⟨_, rfl⟩
    · rename_i instj hj
      split
      · exact ⟨_, rfl⟩
      · rename_i nodej hnj
        have hiid : iid ∈ tl := by
          rcases List.mem_cons.mp hmem with heq | htl
          · subst heq
            rw [hinst] at hj
            injection hj with hj
            subst hj
            rw [hnode] at hnj
            exact absurd hnj (by simp)
          · exact htl
        obtain ⟨e, he⟩ := ih iid inst hiid hinst hnode
        refine ⟨e, ?_⟩
        simp [he]

/-- Worker version of the fail fast property: a dangling node reference in
any listed group makes the whole assembly return an error. -/
theorem to_commands_aux_error (s : Scene) (assets : AssetStore) :
    ∀ (groups : List (Nat × List Nat)) (ib : InstanceBuffer)
      (mesh_id : Nat) (insts : List Nat) (iid : Nat) (inst : MeshInstance),
      (mesh_id, insts) ∈ groups → iid ∈ insts →
      s.mesh_instances[iid]? = some inst →
      s.scene_nodes[inst.node]? = none →
      ∃ e, (s.to_commands_aux assets groups ib).2 = Except.error e := by
  intro groups
  induction groups with
  | nil => intro ib mesh_id insts iid inst h; simp at h
  | cons g rest ih =>
    intro ib mesh_id insts iid inst hmem hiid hinst hnode
    obtain ⟨gm, gi⟩ := g
    simp only [Scene.to_commands_aux]
    split
    · exact ⟨_, rfl⟩
    · rename_i mesh hm
      split
      · exact ⟨_, rfl⟩
      · rename_i material hmat
        split
        · rename_i e ht
          exact ⟨e, rfl⟩
        · rename_i ts ht
          rcases List.mem_cons.mp hmem with heq | htl
          · exfalso
            rw [Prod.mk.injEq] at heq
            obtain ⟨h1, h2⟩ := heq
            rw [← h2] at ht
            obtain ⟨e, he⟩ := instance_transforms_error s insts iid inst hiid hinst hnode
            rw [he] at ht
            exact absurd ht (by simp)
          · obtain ⟨e, he⟩ := ih (ib.add ts gm).1 mesh_id insts iid inst htl hiid hinst hnode
            refine ⟨e, ?_⟩
            simp [he, Except.map]

/-- C9 (amended): command assembly is fail fast. A MeshInstance whose node
id resolves to no scene node makes to_commands return an error and produce
no command list at all; when the failing group is reached first (mesh,
material and earlier instances fine), the returned error is exactly
SceneNodeNotFound with the dangling id; the lookup failure of the node of
an instance at the head of a group yields SceneNodeNotFound, and the
first error of a group aborts the whole assembly with that error. The
error is named SceneNodeNotFound: the SceneError type of the source has
no EntityNotFound variant. -/
theorem C9_fail_fast :
    (∀ (s : Scene) (assets : AssetStore) (ib : InstanceBuffer)
       (mesh_id : Nat) (insts : List Nat) (iid : Nat) (inst : MeshInstance),
      (mesh_id, insts) ∈ s.instances_by_mesh → iid ∈ insts →
      s.mesh_instances[iid]? = some inst →
      s.scene_nodes[inst.node]? = none →
      ∃ e, (s.to_commands assets ib).2 = Except.error e) ∧
    (∀ (s : Scene) (assets : AssetStore) (ib : InstanceBuffer)
       (mesh_id : Nat) (insts : List Nat) (rest : List (Nat × List Nat))
       (mesh : Mesh) (material : Material) (e : SceneError),
      s.instances_by_mesh = (mesh_id, insts) :: rest →
      assets.mesh mesh_id = some mesh →
      assets.material mesh.material = some material →
      s.instance_transforms insts = Except.error e →
      (s.to_commands assets ib).2 = Except.error e) ∧
    (∀ (s : Scene) (iid : Nat) (tl : List Nat) (inst : MeshInstance),
      s.mesh_instances[iid]? = some inst →
      s.scene_nodes[inst.node]? = none →
      s.instance_transforms (iid :: tl) =
        Except.error (SceneError.SceneNodeNotFound inst.node)) := by
  refine ⟨?_, ?_, ?_⟩
  · intro s assets ib mesh_id insts iid inst hmem hiid hinst hnode
    exact to_commands_aux_error s assets s.instances_by_mesh ib mesh_id insts iid inst
      hmem hiid hinst hnode
  · intro s assets ib mesh_id insts rest mesh material e hg hm hmat ht
    rw [Scene.to_commands, hg]
    simp only [Scene.to_commands_aux, hm, hmat, ht]
  · intro s iid tl inst hinst hnode
    simp only [Scene.instance_transforms, hinst, hnode]

/-- C9 (counterexample): a scene with one mesh group whose single
MeshInstance references node id 5 while the scene has only one node. The
mesh and material resolve; the assembly returns the error SceneNodeNotFound
5 (the claimed EntityNotFound error does not exist in SceneError) and no
command list. -/
theorem C9_counterexample :
    (Scene.to_commands
        ⟨[⟨none, [], SceneSpatialTransform.identity, SceneSpatialTransform.identity, true⟩],
         [⟨0, 5⟩], [(0, [0])], 0, 0, 0, 0⟩
        ⟨[⟨"cube", 0, 36⟩], [⟨"mat", 0⟩]⟩
        InstanceBuffer.new).2
      = Except.error (SceneError.SceneNodeNotFound 5) := by
  rfl

/-! ## C10: renderer frame protocol -/

/-- C10 (counterexample): render_scene_for_frame does not wrap begin_frame
and end_frame and does not acquire the surface image itself. On a renderer
with a configured surface but no begun frame, and an empty scene whose
assembly and upload succeed, it returns the NoFrameInProgress error (and
leaves current_frame empty) instead of acquiring and presenting a frame as
the claim describes. -/
theorem C10_counterexample :
    Renderer.render_scene_for_frame
        ⟨true, InstanceBuffer.new, ⟨[], []⟩, [], [], none⟩
        ⟨[], [], [], 0, 0, 0, 0⟩
      = some (⟨true, InstanceBuffer.new, ⟨[], []⟩, [], [], none⟩,
          Except.error RenderError.NoFrameInProgress) := by
  rfl

/-- C10 (amended): render_scene_for_frame checks the configured surface
first (UnconfiguredSurface), assembles and uploads, and then fails with
NoFrameInProgress when no frame has been begun; begin_frame, called by the
caller (not by render_scene_for_frame), acquires the surface image and sets
the current frame, and end_frame presents it, failing with
NoFrameInProgress when no frame is in progress. -/
theorem C10_frame_protocol :
    (∀ (r : Renderer) (scene : Scene), r.surface_is_configured = false →
      r.render_scene_for_frame scene =
        some (r, Except.error RenderError.UnconfiguredSurface)) ∧
    (∀ (r : Renderer) (scene : Scene) (ib : InstanceBuffer)
       (cmds : List MeshRenderCommand),
      r.surface_is_configured = true → r.current_frame = none →
      scene.to_commands r.assets r.instance_buffer = (ib, Except.ok cmds) →
      ib.write = some () →
      r.render_scene_for_frame scene =
        some ({ r with instance_buffer := ib },
          Except.error RenderError.NoFrameInProgress)) ∧
    (∀ r : Renderer,
      r.begin_frame.1.current_frame = some () ∧ r.begin_frame.2 = Except.ok ()) ∧
    (∀ r : Renderer, r.current_frame = none →
      r.end_frame = (r, Except.error RenderError.NoFrameInProgress)) ∧
    (∀ (r : Renderer) (f : Unit), r.current_frame = some f →
      r.end_frame = ({ r with current_frame := none }, Except.ok ())) := by
  refine ⟨?_, ?_, ?_, ?_, ?_⟩
  · intro r scene h
    simp [Renderer.render_scene_for_frame, h]
  · intro r scene ib cmds h1 h2 h3 h4
    simp [Renderer.render_scene_for_frame, h1, h2, h3, h4]
  · intro r
    exact ⟨rfl, rfl⟩
  · intro r h
    simp [Renderer.end_frame, h]
  · intro r f h
    simp [Renderer.end_frame, h]

/-! ## World propagation: reachability and propagation loop lemmas -/

/-- Children of a looked up entity. -/
theorem childrenOf_eq {ents : List WorldEntity} {p : Nat} {e : WorldEntity}
    (h : ents[p]? = some e) : childrenOf ents p = e.children := by
  simp [childrenOf, h]

/-- One step of reachability. -/
theorem ReachK.child {K : Nat → List Nat} {b c : Nat} (h : c ∈ K b) : ReachK K b c :=
  ReachK.tail (ReachK.refl b) h

/-- Transitivity of reachability. -/
theorem ReachK.trans {K : Nat → List Nat} {a b c : Nat}
    (h1 : ReachK K a b) (h2 : ReachK K b c) : ReachK K a c := by
  induction h2 with
  | refl => exact h1
  | tail _ hm ih => exact ReachK.tail ih hm

/-- Head decomposition of reachability: a path is empty or passes through a
child of its start. -/
theorem ReachK.head_cases {K : Nat → List Nat} {a p : Nat} (h : ReachK K a p) :
    a = p ∨ ∃ c ∈ K a, ReachK K c p := by
  induction h with
  | refl => exact Or.inl rfl
  | tail hab hc ih =>
    rename_i b c
    rcases ih with heq | ⟨d, hd, hdb⟩
    · exact Or.inr ⟨c, heq ▸ hc, ReachK.refl c⟩
    · exact Or.inr ⟨d, hd, ReachK.tail hdb hc⟩

/-- The transform of an entity ignores the propagated flag. -/
theorem transform_set_already_propagated (e : WorldEntity) (b : Bool) :
    (e.set_already_propagated b).transform = e.transform := rfl

/-- Specification of the inner propagation loop: on success the length is
kept, entries off the list are untouched, and every listed child ends with
the pushed parent transform, a cleared flag and all other fields intact. -/
theorem ptc_spec :
    ∀ (cs : List Nat) (ents : List WorldEntity) (t : SpatialTransform)
      (ents' : List WorldEntity),
      propagate_to_children ents t cs = some ents' →
      (ents'.length = ents.length) ∧
      (∀ i, i ∉ cs → ents'[i]? = ents[i]?) ∧
      (∀ c ∈ cs, ∃ oc, ents[c]? = some oc ∧
        ents'[c]? = some { oc with parent_transform := t, already_propagated := false }) := by
  intro cs
  induction cs with
  | nil =>
    intro ents t ents' h
    simp only [propagate_to_children, Option.some.injEq] at h
    subst h
    exact ⟨rfl, fun _ _ => rfl, fun c hc => absurd hc (List.not_mem_nil c)⟩
  | cons c rest ih =>
    intro ents t ents' h
    simp only [propagate_to_children] at h
    split at h
    · exact absurd h (by simp)
    · rename_i e he
      have hlt : c < ents.length := (List.getElem?_eq_some.mp he).1
      obtain ⟨ihlen, ihoff, ihon⟩ := ih _ _ _ h
      refine ⟨by rw [ihlen, List.length_set], ?_, ?_⟩
      · intro i hi
        have hic : i ≠ c := fun hic => hi (hic ▸ List.mem_cons_self c rest)
        have hir : i ∉ rest := fun hir => hi (List.mem_cons_of_mem c hir)
        rw [ihoff i hir, List.getElem?_set_ne (fun hh => hic hh.symm)]
      · intro c' hc'
        by_cases hcr : c' ∈ rest
        · obtain ⟨oc, hoc, hoc'⟩ := ihon c' hcr
          by_cases hcc : c' = c
          · subst hcc
            rw [List.getElem?_set_self hlt] at hoc
            injection hoc with hoc
            subst hoc
            exact ⟨e, he, hoc'⟩
          · rw [List.getElem?_set_ne (fun hh => hcc hh.symm)] at hoc
            exact ⟨oc, hoc, hoc'⟩
        · have hcc : c' = c := by
            rcases List.mem_cons.mp hc' with h1 | h1
            · exact h1
            · exact absurd h1 hcr
          subst hcc
          have := ihoff c' hcr
          rw [List.getElem?_set_self hlt] at this
          exact ⟨e, he, this⟩

/-- The propagation loop does not change any children list. -/
theorem ptc_kids {cs : List Nat} {ents : List WorldEntity} {t : SpatialTransform}
    {ents' : List WorldEntity} (h : propagate_to_children ents t cs = some ents') :
    ∀ n, childrenOf ents' n = childrenOf ents n := by
  obtain ⟨_, hoff, hon⟩ := ptc_spec cs ents t ents' h
  intro n
  by_cases hn : n ∈ cs
  · obtain ⟨oc, hoc, hoc'⟩ := hon n hn
    rw [childrenOf_eq hoc', childrenOf_eq hoc]
  · rw [childrenOf, hoff n hn, childrenOf]

/-- Setting an entry to a value with the same children list changes no
children list. -/
theorem set_kids {ents : List WorldEntity} {cur : Nat} {e e' : WorldEntity}
    (h : ents[cur]? = some e) (hch : e'.children = e.children) :
    ∀ n, childrenOf (ents.set cur e') n = childrenOf ents n := by
  intro n
  by_cases hn : n = cur
  · subst hn
    have hlt : n < ents.length := (List.getElem?_eq_some.mp h).1
    rw [childrenOf_eq (List.getElem?_set_self hlt), hch, childrenOf_eq h]
  · rw [childrenOf, List.getElem?_set_ne (fun hh => hn hh.symm), childrenOf]

/-- The breadth first worker preserves the arena length and every children
list. -/
theorem aux_preserves :
    ∀ (fuel : Nat) (queue : List Nat) (ents final : List WorldEntity),
      update_graph_aux fuel queue ents = some final →
      final.length = ents.length ∧ ∀ n, childrenOf final n = childrenOf ents n := by
  intro fuel
  induction fuel with
  | zero =>
    intro queue ents final h
    cases queue with
    | nil =>
      simp only [update_graph_aux, Option.some.injEq] at h
      subst h
      exact ⟨rfl, fun _ => rfl⟩
    | cons cur rest =>
      simp only [update_graph_aux] at h
      exact absurd h (by simp)
  | succ f ih =>
    intro queue ents final h
    cases queue with
    | nil =>
      simp only [update_graph_aux, Option.some.injEq] at h
      subst h
      exact ⟨rfl, fun _ => rfl⟩
    | cons cur rest =>
      simp only [update_graph_aux] at h
      split at h
      · exact absurd h (by simp)
      · rename_i e he
        split at h
        · exact ih _ _ _ h
        · split at h
          · exact absurd h (by simp)
          · rename_i ents2 hptc
            obtain ⟨ihlen, ihkids⟩ := ih _ _ _ h
            obtain ⟨plen, _, _⟩ := ptc_spec _ _ _ _ hptc
            constructor
            · rw [ihlen, plen, List.length_set]
            · intro n
              rw [ihkids n, ptc_kids hptc n,
                set_kids he (show (e.set_already_propagated true).children = e.children
                  from rfl) n]

/-- Completeness of the breadth first pass: if every reachable entity is
either already propagated or below some queued node, then after the worker
completes every reachable entity is propagated. -/
theorem aux_clean (K : Nat → List Nat) (root : Nat) :
    ∀ (fuel : Nat) (queue : List Nat) (ents final : List WorldEntity),
      (∀ n, childrenOf ents n = K n) →
      (∀ p, ReachK K root p →
        (∃ e, ents[p]? = some e ∧ e.already_propagated = true) ∨
          ∃ q ∈ queue, ReachK K q p) →
      update_graph_aux fuel queue ents = some final →
      ∀ p, ReachK K root p → ∃ e, final[p]? = some e ∧ e.already_propagated = true := by
  intro fuel
  induction fuel with
  | zero =>
    intro queue ents final hkids hinv h p hp
    cases queue with
    | nil =>
      simp only [update_graph_aux, Option.some.injEq] at h
      subst h
      rcases hinv p hp with hl | ⟨q, hq, _⟩
      · exact hl
      · exact absurd hq (List.not_mem_nil q)
    | cons cur rest =>
      simp only [update_graph_aux] at h
      exact absurd h (by simp)
  | succ f ih =>
    intro queue ents final hkids hinv h p hp
    cases queue with
    | nil =>
      simp only [update_graph_aux, Option.some.injEq] at h
      subst h
      rcases hinv p hp with hl | ⟨q, hq, _⟩
      · exact hl
      · exact absurd hq (List.not_mem_nil q)
    | cons cur rest =>
      simp only [update_graph_aux] at h
      split at h
      · exact absurd h (by simp)
      · rename_i e he
        have hech : e.children = K cur := by
          rw [← childrenOf_eq he, hkids]
        split at h
        · rename_i hap
          refine ih (rest ++ e.children) ents final hkids ?_ h p hp
          intro q' hq'
          rcases hinv q' hq' with hl | ⟨q, hq, hqp⟩
          · exact Or.inl hl
          · rcases List.mem_cons.mp hq with rfl | hqr
            · rcases ReachK.head_cases hqp with rfl | ⟨c, hc, hcp⟩
              · exact Or.inl ⟨e, he, hap⟩
              · have hc' : c ∈ e.children := by rw [hech]; exact hc
                exact Or.inr ⟨c, List.mem_append_right rest hc', hcp⟩
            · exact Or.inr ⟨q, List.mem_append_left _ hqr, hqp⟩
        · rename_i hap
          split at h
          · exact absurd h (by simp)
          · rename_i ents2 hptc
            obtain ⟨plen, poff, pon⟩ := ptc_spec _ _ _ _ hptc
            have hcur_lt : cur < ents.length := (List.getElem?_eq_some.mp he).1
            have hkids2 : ∀ n, childrenOf ents2 n = K n := by
              intro n
              rw [ptc_kids hptc n,
                set_kids he (show (e.set_already_propagated true).children = e.children
                  from rfl) n, hkids]
            refine ih (rest ++ e.children) ents2 final hkids2 ?_ h p hp
            intro q' hq'
            by_cases hpch : q' ∈ e.children
            · exact Or.inr ⟨q', List.mem_append_right rest hpch, ReachK.refl q'⟩
            · rcases hinv q' hq' with ⟨pe, hpe, hpeap⟩ | ⟨q, hq, hqp⟩
              · by_cases hpc : q' = cur
                · subst hpc
                  refine Or.inl ⟨e.set_already_propagated true, ?_, rfl⟩
                  rw [poff _ hpch, List.getElem?_set_self hcur_lt]
                · refine Or.inl ⟨pe, ?_, hpeap⟩
                  rw [poff _ hpch, List.getElem?_set_ne (fun hh => hpc hh.symm), hpe]
              · rcases List.mem_cons.mp hq with rfl | hqr
                · rcases ReachK.head_cases hqp with rfl | ⟨c, hc, hcp⟩
                  · refine Or.inl ⟨e.set_already_propagated true, ?_, rfl⟩
                    rw [poff _ hpch, List.getElem?_set_self hcur_lt]
                  · have hc' : c ∈ e.children := by rw [hech]; exact hc
                    exact Or.inr ⟨c, List.mem_append_right rest hc', hcp⟩
                · exact Or.inr ⟨q, List.mem_append_left _ hqr, hqp⟩

/-- Preservation of the propagation consistency invariant by the breadth
first pass, for a unique ownership, self loop free children assignment. -/
theorem aux_invb (K : Nat → List Nat)
    (huniq : ∀ p1 p2 c, c ∈ K p1 → c ∈ K p2 → p1 = p2) :
    ∀ (fuel : Nat) (queue : List Nat) (ents final : List WorldEntity),
      (∀ n, childrenOf ents n = K n) →
      PropagatedConsistent ents →
      update_graph_aux fuel queue ents = some final →
      PropagatedConsistent final := by
  intro fuel
  induction fuel with
  | zero =>
    intro queue ents final hkids hcons h
    cases queue with
    | nil =>
      simp only [update_graph_aux, Option.some.injEq] at h
      subst h
      exact hcons
    | cons cur rest =>
      simp only [update_graph_aux] at h
      exact absurd h (by simp)
  | succ f ih =>
    intro queue ents final hkids hcons h
    cases queue with
    | nil =>
      simp only [update_graph_aux, Option.some.injEq] at h
      subst h
      exact hcons
    | cons cur rest =>
      simp only [update_graph_aux] at h
      split at h
      · exact absurd h (by simp)
      · rename_i e he
        have hech : e.children = K cur := by
          rw [← childrenOf_eq he, hkids]
        split at h
        · exact ih _ _ _ hkids hcons h
        · rename_i hap
          split at h
          · exact absurd h (by simp)
          · rename_i ents2 hptc
            obtain ⟨plen, poff, pon⟩ := ptc_spec _ _ _ _ hptc
            have hcur_lt : cur < ents.length := (List.getElem?_eq_some.mp he).1
            have hkids2 : ∀ n, childrenOf ents2 n = K n := by
              intro n
              rw [ptc_kids hptc n,
                set_kids he (show (e.set_already_propagated true).children = e.children
                  from rfl) n, hkids]
            refine ih _ _ _ hkids2 ?_ h
            intro p pe hpe hpeap c hc
            by_cases hpch : p ∈ e.children
            · obtain ⟨oc, hoc, hoc'⟩ := pon p hpch
              rw [hoc'] at hpe
              injection hpe with hpe
              subst hpe
              exact absurd hpeap (by simp)
            · by_cases hpc : p = cur
              · subst hpc
                have hlook : ents2[p]? = some (e.set_already_propagated true) := by
                  rw [poff _ hpch, List.getElem?_set_self hcur_lt]
                rw [hlook] at hpe
                injection hpe with hpe
                subst hpe
                obtain ⟨oc, hoc, hoc'⟩ := pon c hc
                refine ⟨_, hoc', ?_⟩
                rw [transform_set_already_propagated]
              · have hlook : ents2[p]? = ents[p]? := by
                  rw [poff _ hpch, List.getElem?_set_ne (fun hh => hpc hh.symm)]
                rw [hlook] at hpe
                obtain ⟨ce, hce, hcept⟩ := hcons p pe hpe hpeap c hc
                by_cases hcch : c ∈ e.children
                · exfalso
                  have h1 : c ∈ K cur := by rw [← hech]; exact hcch
                  have h2 : c ∈ K p := by
                    rw [← hkids p, childrenOf_eq hpe]
                    exact hc
                  exact hpc (huniq p cur c h2 h1)
                · by_cases hcc : c = cur
                  · subst hcc
                    have hlook2 : ents2[c]? = some (e.set_already_propagated true) := by
                      rw [poff _ hcch, List.getElem?_set_self hcur_lt]
                    refine ⟨e.set_already_propagated true, hlook2, ?_⟩
                    rw [he] at hce
                    injection hce with hce
                    subst hce
                    exact hcept
                  · have hlook2 : ents2[c]? = ents[c]? := by
                      rw [poff _ hcch, List.getElem?_set_ne (fun hh => hcc hh.symm)]
                    exact ⟨ce, by rw [hlook2]; exact hce, hcept⟩

/-- Frame property of the breadth first pass: entities not reachable from
the root are never touched (the queue starts holding only reachable
nodes). -/
theorem aux_frame (K : Nat → List Nat) (root : Nat) :
    ∀ (fuel : Nat) (queue : List Nat) (ents final : List WorldEntity),
      (∀ n, childrenOf ents n = K n) →
      (∀ q ∈ queue, ReachK K root q) →
      update_graph_aux fuel queue ents = some final →
      ∀ i, ¬ ReachK K root i → final[i]? = ents[i]? := by
  intro fuel
  induction fuel with
  | zero =>
    intro queue ents final hkids hq h i hi
    cases queue with
    | nil =>
      simp only [update_graph_aux, Option.some.injEq] at h
      subst h
      rfl
    | cons cur rest =>
      simp only [update_graph_aux] at h
      exact absurd h (by simp)
  | succ f ih =>
    intro queue ents final hkids hq h i hi
    cases queue with
    | nil =>
      simp only [update_graph_aux, Option.some.injEq] at h
      subst h
      rfl
    | cons cur rest =>
      have hcurR : ReachK K root cur := hq cur (List.mem_cons_self cur rest)
      simp only [update_graph_aux] at h
      split at h
      · exact absurd h (by simp)
      · rename_i e he
        have hech : e.children = K cur := by
          rw [← childrenOf_eq he, hkids]
        have hqnext : ∀ q ∈ rest ++ e.children, ReachK K root q := by
          intro q hqm
          rcases List.mem_append.mp hqm with h1 | h1
          · exact hq q (List.mem_cons_of_mem _ h1)
          · refine ReachK.trans hcurR (ReachK.child ?_)
            rw [← hech]
            exact h1
        split at h
        · exact ih _ _ _ hkids hqnext h i hi
        · rename_i hap
          split at h
          · exact absurd h (by simp)
          · rename_i ents2 hptc
            obtain ⟨plen, poff, pon⟩ := ptc_spec _ _ _ _ hptc
            have hkids2 : ∀ n, childrenOf ents2 n = K n := by
              intro n
              rw [ptc_kids hptc n,
                set_kids he (show (e.set_already_propagated true).children = e.children
                  from rfl) n, hkids]
            have hstable : ents2[i]? = ents[i]? := by
              have hic : i ≠ cur := fun hh => hi (hh ▸ hcurR)
              have hich : i ∉ e.children := by
                intro hh
                refine hi (ReachK.trans hcurR (ReachK.child ?_))
                rw [← hech]
                exact hh
              rw [poff _ hich, List.getElem?_set_ne (fun hh => hic hh.symm)]
            rw [ih _ _ _ hkids2 hqnext h i hi, hstable]

/-- Step equation of the worker at an already propagated head. -/
theorem aux_step_clean (f : Nat) (cur : Nat) (rest : List Nat)
    (ents : List WorldEntity) (e : WorldEntity)
    (hl : ents[cur]? = some e) (hap : e.already_propagated = true) :
    update_graph_aux (f + 1) (cur :: rest) ents
      = update_graph_aux f (rest ++ e.children) ents := by
  simp [update_graph_aux, hl, hap]

/-- Idempotence transfer: a state whose reachable entities are all
propagated, with the same arena size and children lists as a state on which
the worker completed, is a fixed point of the worker on the same queue and
fuel. -/
theorem aux_idem (K : Nat → List Nat) (root : Nat) :
    ∀ (fuel : Nat) (queue : List Nat) (entsA entsB finalA : List WorldEntity),
      update_graph_aux fuel queue entsA = some finalA →
      entsA.length = entsB.length →
      (∀ n, childrenOf entsA n = K n) →
      (∀ n, childrenOf entsB n = K n) →
      (∀ q ∈ queue, ReachK K root q) →
      (∀ p, ReachK K root p → ∃ e, entsB[p]? = some e ∧ e.already_propagated = true) →
      update_graph_aux fuel queue entsB = some entsB := by
  intro fuel
  induction fuel with
  | zero =>
    intro queue entsA entsB finalA hA hlen hkA hkB hq hclean
    cases queue with
    | nil => simp [update_graph_aux]
    | cons cur rest =>
      simp only [update_graph_aux] at hA
      exact absurd hA (by simp)
  | succ f ih =>
    intro queue entsA entsB finalA hA hlen hkA hkB hq hclean
    cases queue with
    | nil => simp [update_graph_aux]
    | cons cur rest =>
      have hcurR : ReachK K root cur := hq cur (List.mem_cons_self cur rest)
      obtain ⟨eB, hBl, hBap⟩ := hclean cur hcurR
      have hBch : eB.children = K cur := by
        rw [← childrenOf_eq hBl, hkB]
      simp only [update_graph_aux] at hA
      split at hA
      · exact absurd hA (by simp)
      · rename_i eA heA
        have hkidscur : eA.children = eB.children := by
          rw [← childrenOf_eq heA, ← childrenOf_eq hBl, hkA, hkB]
        have hqnext : ∀ q ∈ rest ++ eB.children, ReachK K root q := by
          intro q hqm
          rcases List.mem_append.mp hqm with h1 | h1
          · exact hq q (List.mem_cons_of_mem _ h1)
          · refine ReachK.trans hcurR (ReachK.child ?_)
            rw [← hBch]
            exact h1
        rw [aux_step_clean f cur rest entsB eB hBl hBap]
        split at hA
        · rw [hkidscur] at hA
          exact ih _ entsA entsB finalA hA hlen hkA hkB hqnext hclean
        · rename_i hapA
          split at hA
          · exact absurd hA (by simp)
          · rename_i ents2 hptc
            obtain ⟨plen, _, _⟩ := ptc_spec _ _ _ _ hptc
            have hlen2 : ents2.length = entsB.length := by
              rw [plen, List.length_set, hlen]
            have hk2 : ∀ n, childrenOf ents2 n = K n := by
              intro n
              rw [ptc_kids hptc n,
                set_kids heA (show (eA.set_already_propagated true).children = eA.children
                  from rfl) n, hkA]
            rw [hkidscur] at hA
            exact ih _ ents2 entsB finalA hA hlen2 hk2 hkB hqnext hclean

/-! ## C2: idempotence of propagation -/

/-- C2: a second propagation pass right after a completed one returns the
same world unchanged: no parent transform, local transform or flag moves
(the completed first pass leaves every entity reachable from the root
propagated, and the traversal of the second pass then never takes the
mutating branch). -/
theorem C2_update_graph_idempotent (w : World) (fuel : Nat) (w' : World)
    (h : w.update_graph fuel = some w') :
    w'.update_graph fuel = some w' := by
  simp only [World.update_graph] at h ⊢
  obtain ⟨final, haux, hw'⟩ := Option.map_eq_some'.mp h
  subst hw'
  obtain ⟨hlen, hkids⟩ := aux_preserves fuel [w.root_entity] w.entities final haux
  have hclean := aux_clean (childrenOf w.entities) w.root_entity fuel [w.root_entity]
    w.entities final (fun _ => rfl)
    (fun p hp => Or.inr ⟨w.root_entity, by simp, hp⟩) haux
  have hidem := aux_idem (childrenOf w.entities) w.root_entity fuel [w.root_entity]
    w.entities final final haux hlen.symm (fun _ => rfl) hkids
    (fun q hq => by rw [List.mem_singleton] at hq; subst hq; exact ReachK.refl _) hclean
  rw [hidem]
  rfl

/-- C2 (witness): the idempotence applied to a freshly created world, whose
single propagation pass only sets the root flag. -/
theorem C2_update_graph_idempotent_witness :
    (World.new.update_graph 2 = some ⟨[⟨none, [], SpatialTransform.identity,
        SpatialTransform.identity, true⟩], 0⟩) ∧
    World.update_graph ⟨[⟨none, [], SpatialTransform.identity, SpatialTransform.identity,
        true⟩], 0⟩ 2 = some ⟨[⟨none, [], SpatialTransform.identity,
        SpatialTransform.identity, true⟩], 0⟩ :=
  ⟨rfl, C2_update_graph_idempotent World.new 2 _ rfl⟩

/-! ## C1: propagation correctness -/

/-- C1 (amended): over the children list adjacency, propagation is correct.
If every stored child id belongs to at most one entity, and every already
propagated entity has consistent children (true of freshly built worlds,
where no flag is set, and preserved by the mutation API), then after a
completed update_graph every entity p reachable from the root along
children lists is propagated, and each child e listed by p satisfies
e.transform() = combine(p.transform(), e.local_transform()). -/
theorem C1_propagation_amended (w : World) (fuel : Nat) (w' : World)
    (huniq : ∀ p1 p2 c, c ∈ childrenOf w.entities p1 → c ∈ childrenOf w.entities p2 →
      p1 = p2)
    (hconsist : PropagatedConsistent w.entities)
    (hrun : w.update_graph fuel = some w') :
    ∀ p pe, ReachK (childrenOf w.entities) w.root_entity p → w'.entity p = some pe →
      pe.already_propagated = true ∧
      ∀ c ∈ pe.children, ∃ ce, w'.entity c = some ce ∧
        ce.transform = pe.transform.combine ce.local_transform := by
  simp only [World.update_graph] at hrun
  obtain ⟨final, haux, hw'⟩ := Option.map_eq_some'.mp hrun
  subst hw'
  have hcons2 := aux_invb (childrenOf w.entities) huniq fuel [w.root_entity]
    w.entities final (fun _ => rfl) hconsist haux
  have hclean := aux_clean (childrenOf w.entities) w.root_entity fuel [w.root_entity]
    w.entities final (fun _ => rfl)
    (fun p hp => Or.inr ⟨w.root_entity, by simp, hp⟩) haux
  intro p pe hreach hlook
  have hlook' : final[p]? = some pe := hlook
  obtain ⟨pe', hpe', hap'⟩ := hclean p hreach
  rw [hlook'] at hpe'
  injection hpe' with hpe'
  subst hpe'
  refine ⟨hap', ?_⟩
  intro c hc
  obtain ⟨ce, hce, hpt⟩ := hcons2 p pe hlook' hap' c hc
  refine ⟨ce, hce, ?_⟩
  rw [WorldEntity.transform, hpt]

/-- C1 (witness): the amended propagation correctness on a two entity world
whose root lists one child carrying local position (0,5,0). -/
theorem C1_propagation_amended_witness :
    (∀ p1 p2 c,
      c ∈ childrenOf [⟨none, [1], SpatialTransform.identity, SpatialTransform.identity,
          false⟩,
        ⟨some 0, [], SpatialTransform.identity,
          ⟨⟨1, 1, 1⟩, ⟨0, 5, 0⟩, ⟨1, ⟨0, 0, 0⟩⟩⟩, false⟩] p1 →
      c ∈ childrenOf [⟨none, [1], SpatialTransform.identity, SpatialTransform.identity,
          false⟩,
        ⟨some 0, [], SpatialTransform.identity,
          ⟨⟨1, 1, 1⟩, ⟨0, 5, 0⟩, ⟨1, ⟨0, 0, 0⟩⟩⟩, false⟩] p2 → p1 = p2) ∧
    PropagatedConsistent [⟨none, [1], SpatialTransform.identity, SpatialTransform.identity,
        false⟩,
      ⟨some 0, [], SpatialTransform.identity,
        ⟨⟨1, 1, 1⟩, ⟨0, 5, 0⟩, ⟨1, ⟨0, 0, 0⟩⟩⟩, false⟩] ∧
    (World.update_graph
      ⟨[⟨none, [1], SpatialTransform.identity, SpatialTransform.identity, false⟩,
        ⟨some 0, [], SpatialTransform.identity,
          ⟨⟨1, 1, 1⟩, ⟨0, 5, 0⟩, ⟨1, ⟨0, 0, 0⟩⟩⟩, false⟩], 0⟩ 4
      = some ⟨[⟨none, [1], SpatialTransform.identity, SpatialTransform.identity, true⟩,
        ⟨some 0, [], SpatialTransform.identity.combine SpatialTransform.identity,
          ⟨⟨1, 1, 1⟩, ⟨0, 5, 0⟩, ⟨1, ⟨0, 0, 0⟩⟩⟩, true⟩], 0⟩) ∧
    (∀ p pe,
      ReachK (childrenOf [⟨none, [1], SpatialTransform.identity, SpatialTransform.identity,
          false⟩,
        ⟨some 0, [], SpatialTransform.identity,
          ⟨⟨1, 1, 1⟩, ⟨0, 5, 0⟩, ⟨1, ⟨0, 0, 0⟩⟩⟩, false⟩]) 0 p →
      World.entity ⟨[⟨none, [1], SpatialTransform.identity, SpatialTransform.identity,
          true⟩,
        ⟨some 0, [], SpatialTransform.identity.combine SpatialTransform.identity,
          ⟨⟨1, 1, 1⟩, ⟨0, 5, 0⟩, ⟨1, ⟨0, 0, 0⟩⟩⟩, true⟩], 0⟩ p = some pe →
      pe.already_propagated = true ∧
      ∀ c ∈ pe.children, ∃ ce,
        World.entity ⟨[⟨none, [1], SpatialTransform.identity, SpatialTransform.identity,
            true⟩,
          ⟨some 0, [], SpatialTransform.identity.combine SpatialTransform.identity,
            ⟨⟨1, 1, 1⟩, ⟨0, 5, 0⟩, ⟨1, ⟨0, 0, 0⟩⟩⟩, true⟩], 0⟩ c = some ce ∧
        ce.transform = pe.transform.combine ce.local_transform) := by
  have hch : ∀ p c,
      c ∈ childrenOf [⟨none, [1], SpatialTransform.identity, SpatialTransform.identity,
          false⟩,
        ⟨some 0, [], SpatialTransform.identity,
          ⟨⟨1, 1, 1⟩, ⟨0, 5, 0⟩, ⟨1, ⟨0, 0, 0⟩⟩⟩, false⟩] p → p = 0 ∧ c = 1 := by
    intro p c h
    match p with
    | 0 => simp [childrenOf] at h; exact ⟨rfl, h⟩
    | 1 => simp [childrenOf] at h
    | (n + 2) => simp [childrenOf] at h
  have huniq : ∀ p1 p2 c,
      c ∈ childrenOf [⟨none, [1], SpatialTransform.identity, SpatialTransform.identity,
          false⟩,
        ⟨some 0, [], SpatialTransform.identity,
          ⟨⟨1, 1, 1⟩, ⟨0, 5, 0⟩, ⟨1, ⟨0, 0, 0⟩⟩⟩, false⟩] p1 →
      c ∈ childrenOf [⟨none, [1], SpatialTransform.identity, SpatialTransform.identity,
          false⟩,
        ⟨some 0, [], SpatialTransform.identity,
          ⟨⟨1, 1, 1⟩, ⟨0, 5, 0⟩, ⟨1, ⟨0, 0, 0⟩⟩⟩, false⟩] p2 → p1 = p2 := by
    intro p1 p2 c h1 h2
    obtain ⟨e1, _⟩ := hch p1 c h1
    obtain ⟨e2, _⟩ := hch p2 c h2
    rw [e1, e2]
  have hcons : PropagatedConsistent
      [⟨none, [1], SpatialTransform.identity, SpatialTransform.identity, false⟩,
        ⟨some 0, [], SpatialTransform.identity,
          ⟨⟨1, 1, 1⟩, ⟨0, 5, 0⟩, ⟨1, ⟨0, 0, 0⟩⟩⟩, false⟩] := by
    intro p e hp hap c hc
    exfalso
    have hmem := List.getElem?_mem hp
    rcases List.mem_cons.mp hmem with rfl | h2
    · simp at hap
    · rcases List.mem_cons.mp h2 with rfl | h3
      · simp at hap
      · simp at h3
  exact ⟨huniq, hcons, rfl,
    C1_propagation_amended
      ⟨[⟨none, [1], SpatialTransform.identity, SpatialTransform.identity, false⟩,
        ⟨some 0, [], SpatialTransform.identity,
          ⟨⟨1, 1, 1⟩, ⟨0, 5, 0⟩, ⟨1, ⟨0, 0, 0⟩⟩⟩, false⟩], 0⟩ 4
      ⟨[⟨none, [1], SpatialTransform.identity, SpatialTransform.identity, true⟩,
        ⟨some 0, [], SpatialTransform.identity.combine SpatialTransform.identity,
          ⟨⟨1, 1, 1⟩, ⟨0, 5, 0⟩, ⟨1, ⟨0, 0, 0⟩⟩⟩, true⟩], 0⟩
      huniq hcons rfl⟩

/-- C1 (counterexample): the claim over the parent field and worlds built
through add_entity is false. add_entity never inserts the new id into the
children list of its parent (and the root keeps an empty children list), so
propagation reaches nothing: after update_graph completes, the entity with
parent id 1 keeps the identity parent_transform and its transform (position
(1,0,0)) differs from combine(parent.transform(), local_transform())
(position (1,5,0)). -/
theorem C1_counterexample :
    (((World.new.add_entity none []
        ⟨⟨1, 1, 1⟩, ⟨0, 5, 0⟩, ⟨1, ⟨0, 0, 0⟩⟩⟩).1.add_entity (some 1) []
        ⟨⟨1, 1, 1⟩, ⟨1, 0, 0⟩, ⟨1, ⟨0, 0, 0⟩⟩⟩).1.update_graph 4
      = some ⟨[⟨none, [], SpatialTransform.identity, SpatialTransform.identity, true⟩,
          ⟨some 0, [], SpatialTransform.identity,
            ⟨⟨1, 1, 1⟩, ⟨0, 5, 0⟩, ⟨1, ⟨0, 0, 0⟩⟩⟩, false⟩,
          ⟨some 1, [], SpatialTransform.identity,
            ⟨⟨1, 1, 1⟩, ⟨1, 0, 0⟩, ⟨1, ⟨0, 0, 0⟩⟩⟩, false⟩], 0⟩) ∧
    ((⟨some 1, [], SpatialTransform.identity,
        ⟨⟨1, 1, 1⟩, ⟨1, 0, 0⟩, ⟨1, ⟨0, 0, 0⟩⟩⟩, false⟩ : WorldEntity).parent = some 1) ∧
    (⟨some 1, [], SpatialTransform.identity,
        ⟨⟨1, 1, 1⟩, ⟨1, 0, 0⟩, ⟨1, ⟨0, 0, 0⟩⟩⟩, false⟩ : WorldEntity).transform ≠
      (⟨some 0, [], SpatialTransform.identity,
        ⟨⟨1, 1, 1⟩, ⟨0, 5, 0⟩, ⟨1, ⟨0, 0, 0⟩⟩⟩, false⟩ : WorldEntity).transform.combine
        (⟨some 1, [], SpatialTransform.identity,
          ⟨⟨1, 1, 1⟩, ⟨1, 0, 0⟩, ⟨1, ⟨0, 0, 0⟩⟩⟩, false⟩ : WorldEntity).local_transform := by
  refine ⟨rfl, rfl, ?_⟩
  norm_num [WorldEntity.transform, SpatialTransform.combine, SpatialTransform.identity,
    Vec3.mul_element_wise, Quat.rotate_vector, Vec3.cross, Vec3.smul, Vec3.add, Quat.mul,
    SpatialTransform.mk.injEq, Vec3.mk.injEq, Quat.mk.injEq]

/-! ## C3: add_entity frame and unreachability -/

/-- C3: add_entity changes no pre-existing entity (in particular it never
appends the new id to the parent or root children list), returns the fresh
id, and in a world with valid children ids the new entity is unreachable
from the root along children lists and is left untouched by any completed
update_graph pass. -/
theorem C3_add_entity_frame (w : World) (parent : Option Nat) (children : List Nat)
    (t : SpatialTransform)
    (hvalid : ∀ p c, c ∈ childrenOf w.entities p → c < w.entities.length)
    (hroot : w.root_entity < w.entities.length) :
    (∀ i, i < w.entities.length →
      (w.add_entity parent children t).1.entities[i]? = w.entities[i]?) ∧
    ((w.add_entity parent children t).2 = w.entities.length) ∧
    ¬ ReachK (childrenOf (w.add_entity parent children t).1.entities)
        (w.add_entity parent children t).1.root_entity
        ((w.add_entity parent children t).2) ∧
    (∀ fuel w'', (w.add_entity parent children t).1.update_graph fuel = some w'' →
      w''.entities[(w.add_entity parent children t).2]? =
        (w.add_entity parent children t).1.entities[(w.add_entity parent children t).2]?) := by
  have hframe : ∀ i, i < w.entities.length →
      (w.add_entity parent children t).1.entities[i]? = w.entities[i]? := by
    intro i hi
    simp only [World.add_entity]
    exact List.getElem?_append_left hi
  have hlt : ∀ p, ReachK (childrenOf (w.add_entity parent children t).1.entities)
      (w.add_entity parent children t).1.root_entity p → p < w.entities.length := by
    intro p hp
    induction hp with
    | refl => exact hroot
    | tail hab hc ihb =>
      rename_i b c
      have hkb : childrenOf (w.add_entity parent children t).1.entities b
          = childrenOf w.entities b := by
        rw [childrenOf, childrenOf, hframe b ihb]
      rw [hkb] at hc
      exact hvalid b c hc
  have hnreach : ¬ ReachK (childrenOf (w.add_entity parent children t).1.entities)
      (w.add_entity parent children t).1.root_entity
      ((w.add_entity parent children t).2) := by
    intro hcon
    have := hlt _ hcon
    simp only [World.add_entity] at this
    omega
  refine ⟨hframe, rfl, hnreach, ?_⟩
  intro fuel w'' hrun
  simp only [World.update_graph] at hrun
  obtain ⟨final, haux, hw''⟩ := Option.map_eq_some'.mp hrun
  subst hw''
  exact aux_frame (childrenOf (w.add_entity parent children t).1.entities)
    (w.add_entity parent children t).1.root_entity fuel _ _ final (fun _ => rfl)
    (fun q hq => by rw [List.mem_singleton] at hq; subst hq; exact ReachK.refl _)
    haux _ hnreach

/-- C3 (witness): the frame property applied to a fresh world and one
add_entity call with only a parent argument. -/
theorem C3_add_entity_frame_witness :
    (∀ p c, c ∈ childrenOf World.new.entities p → c < World.new.entities.length) ∧
    (World.new.root_entity < World.new.entities.length) ∧
    ((∀ i, i < World.new.entities.length →
      (World.new.add_entity none [] ⟨⟨2, 2, 2⟩, ⟨3, 4, 5⟩, ⟨1, ⟨0, 0, 0⟩⟩⟩).1.entities[i]?
        = World.new.entities[i]?) ∧
    ((World.new.add_entity none [] ⟨⟨2, 2, 2⟩, ⟨3, 4, 5⟩, ⟨1, ⟨0, 0, 0⟩⟩⟩).2
      = World.new.entities.length) ∧
    ¬ ReachK (childrenOf
        (World.new.add_entity none [] ⟨⟨2, 2, 2⟩, ⟨3, 4, 5⟩, ⟨1, ⟨0, 0, 0⟩⟩⟩).1.entities)
        (World.new.add_entity none [] ⟨⟨2, 2, 2⟩, ⟨3, 4, 5⟩, ⟨1, ⟨0, 0, 0⟩⟩⟩).1.root_entity
        ((World.new.add_entity none [] ⟨⟨2, 2, 2⟩, ⟨3, 4, 5⟩, ⟨1, ⟨0, 0, 0⟩⟩⟩).2) ∧
    (∀ fuel w'',
      (World.new.add_entity none [] ⟨⟨2, 2, 2⟩, ⟨3, 4, 5⟩, ⟨1, ⟨0, 0, 0⟩⟩⟩).1.update_graph
        fuel = some w'' →
      w''.entities[(World.new.add_entity none []
        ⟨⟨2, 2, 2⟩, ⟨3, 4, 5⟩, ⟨1, ⟨0, 0, 0⟩⟩⟩).2]? =
        (World.new.add_entity none []
          ⟨⟨2, 2, 2⟩, ⟨3, 4, 5⟩, ⟨1, ⟨0, 0, 0⟩⟩⟩).1.entities[(World.new.add_entity none []
          ⟨⟨2, 2, 2⟩, ⟨3, 4, 5⟩, ⟨1, ⟨0, 0, 0⟩⟩⟩).2]?)) := by
  have hvalid : ∀ p c, c ∈ childrenOf World.new.entities p →
      c < World.new.entities.length := by
    intro p c h
    exfalso
    match p with
    | 0 => simp [childrenOf, World.new, WorldEntity.new] at h
    | (n + 1) => simp [childrenOf, World.new] at h
  have hroot : World.new.root_entity < World.new.entities.length := by
    simp [World.new]
  exact ⟨hvalid, hroot,
    C3_add_entity_frame World.new none [] ⟨⟨2, 2, 2⟩, ⟨3, 4, 5⟩, ⟨1, ⟨0, 0, 0⟩⟩⟩
      hvalid hroot⟩
